import Mathlib

set_option synthInstance.maxHeartbeats 1000000
set_option maxRecDepth 4000

/-!
Verification development for the DEFT task-construction engine
(taskengine: taskdef.py, taskreg.py, projectmode).

Python strings are modelled as lists of characters (`Pstr`); the Python
string methods used by the engine (`split`, `replace`, `lower`, `find`,
`endswith`, substring containment) are given explicit recursive
definitions.  Python `dict`s keyed by strings are modelled as association
lists with in-place update (matching insertion-order iteration).
Machine integers are Python arbitrary-precision integers, modelled as
`Int`; Python 2 `/` on ints is floor division, modelled by `Int.fdiv`.
-/

namespace Deft

/-- Python strings as lists of characters. -/
abbrev Pstr := List Char

/-- `s.split(sep)` for a one-character separator: Python semantics,
`"".split(sep) = [""]`, adjacent separators produce empty fields. -/
def pySplit (sep : Char) : Pstr → List Pstr
  | [] => [[]]
  | c :: rest =>
    match pySplit sep rest with
    | [] => [[]]
    | g :: gs => if c = sep then [] :: g :: gs else (c :: g) :: gs

/-- `sep.join(parts)` for a one-character separator. -/
def pyJoin (sep : Char) : List Pstr → Pstr
  | [] => []
  | [p] => p
  | p :: q :: rest => p ++ sep :: pyJoin sep (q :: rest)

/-- `s.replace(' ', '')`: removing every occurrence of a character. -/
def removeChar (c : Char) (s : Pstr) : Pstr := s.filter (fun x => x ≠ c)

/-- `s.lower()` (ASCII case folding as used by the engine). -/
def pyLower (s : Pstr) : Pstr := s.map Char.toLower

/-- `s.split(pat)[0]` for a multi-character pattern: the prefix of `s`
before the first occurrence of `pat` (all of `s` if `pat` is absent). -/
def takeBeforeSub (pat : Pstr) : Pstr → Pstr
  | [] => []
  | c :: rest => if pat.isPrefixOf (c :: rest) then [] else c :: takeBeforeSub pat rest

/-- `pat in s`: substring containment. -/
def pyContains (s pat : Pstr) : Bool :=
  match s with
  | [] => pat = []
  | _ :: rest => pat.isPrefixOf s || pyContains rest pat

/-- `s.split(':')[-1]`: the part after the last colon (all of `s` when no
colon is present). -/
def afterLastColon (s : Pstr) : Pstr := (pySplit ':' s).getLastD []

/-- `s.split('/')[0]`: the part before the first slash. -/
def beforeFirstSlash (s : Pstr) : Pstr := (pySplit '/' s).headD []

/-- Decidable equality for `Except` results, used to evaluate the
embedded functions on concrete inputs. -/
instance exceptDecEq {e a : Type} [DecidableEq e] [DecidableEq a] : DecidableEq (Except e a)
  | .error x, .error y =>
    if h : x = y then .isTrue (by rw [h]) else .isFalse (by intro hh; cases hh; exact h rfl)
  | .error _, .ok _ => .isFalse (by intro hh; cases hh)
  | .ok _, .error _ => .isFalse (by intro hh; cases hh)
  | .ok x, .ok y =>
    if h : x = y then .isTrue (by rw [h]) else .isFalse (by intro hh; cases hh; exact h rfl)

/-- `pySplit` never returns an empty list of fields. -/
theorem pySplit_ne_nil (sep : Char) (s : Pstr) : pySplit sep s ≠ [] := by
  cases s with
  | nil => simp [pySplit]
  | cons c rest =>
    simp only [pySplit]
    cases h : pySplit sep rest with
    | nil => simp
    | cons g gs =>
      by_cases hc : c = sep <;> simp [hc]

/-- Membership of the separator in a field list: a string with no
occurrence of `sep` splits into the single field equal to itself. -/
theorem pySplit_eq_single (sep : Char) (s : Pstr) (h : sep ∉ s) :
    pySplit sep s = [s] := by
  induction s with
  | nil => rfl
  | cons c rest ih =>
    simp only [List.mem_cons, not_or] at h
    simp only [pySplit, ih h.2]
    have : c ≠ sep := fun hc => h.1 hc.symm
    simp [this]

end Deft

namespace Deft.ProjectMode

/-!
Embedding of `taskengine/projectmode/__init__.py`: the option parser
(`ProjectMode._parse_project_mode`), the typed-coercion loop of
`ProjectMode.__init__` (lines 43-58), and the `__getattr__` fallback.
The trailing `set_cmtconfig` / `set_cmtconfig_options` calls consult the
external software catalogs (AGIS/AMI/CVMFS) and are outside the embedded
fragment; the claims under study concern only the parsing and coercion
steps that precede them.
-/

/-- The exceptions raised by `ProjectMode` parsing and coercion:
the malformed-entry `Exception` of `_parse_project_mode`,
`UnknownProjectModeOption`, `InvalidProjectModeOptionValue`, and the
`ValueError` a failing `int(...)` conversion would raise. -/
inductive PMError
  | formatError (option : Pstr)
  | unknownOption (key : Pstr)
  | invalidValue (key value : Pstr)
  | conversionError (value : Pstr)
deriving Repr, DecidableEq

/-- `dict.update({k: v})`: replace the value of an existing key in place,
otherwise append the binding (insertion-order iteration). -/
def dictInsert {α : Type} (k : Pstr) (v : α) : List (Pstr × α) → List (Pstr × α)
  | [] => [(k, v)]
  | (k0, v0) :: rest =>
    if k0 = k then (k0, v) :: rest else (k0, v0) :: dictInsert k v rest

/-- `option.split('=')[0]`. -/
def entryKey (o : Pstr) : Pstr := (pySplit '=' o).headD []

/-- `option[option.find('=')+1:]`: everything after the first `=`. -/
def entryValue (o : Pstr) : Pstr := pyJoin '=' ((pySplit '=' o).tailD [])

/-- The loop of `_parse_project_mode` over the `;`-separated entries:
empty entries are skipped, an entry without `=` raises the format error,
otherwise the lower-cased key is mapped to the raw value. -/
def parseEntries : List Pstr → List (Pstr × Pstr) → Except PMError (List (Pstr × Pstr))
  | [], acc => .ok acc
  | o :: rest, acc =>
    if o = [] then parseEntries rest acc
    else if '=' ∈ o then parseEntries rest (dictInsert (pyLower (entryKey o)) (entryValue o) acc)
    else .error (.formatError o)

/-- `ProjectMode._parse_project_mode`: strip spaces, split on `;`,
collect `key=value` pairs into a dict. -/
def parse_project_mode (s : Pstr) : Except PMError (List (Pstr × Pstr)) :=
  parseEntries (pySplit ';' (removeChar ' ' s)) []

/-- The declared value type of an option in `projectmode.json`
(`locate` applied to the `type` field). -/
inductive OptType
  | tBool
  | tInt
  | tFloat
  | tStr
deriving Repr, DecidableEq

/-- A typed option value after coercion.  Numeric text of `float`-typed
options is kept verbatim (no claim under study depends on float
conversion). -/
inductive OptValue
  | vBool (b : Bool)
  | vInt (i : Int)
  | vFloat (raw : Pstr)
  | vStr (s : Pstr)
deriving Repr, DecidableEq

/-- An option schema: declared option name (original case) and type. -/
abbrev Schema := List (Pstr × OptType)

/-- `option_names[key]` composed with the schema lookup: find the declared
option whose lower-cased name equals `key`. -/
def schemaFind (schema : Schema) (key : Pstr) : Option (Pstr × OptType) :=
  schema.find? (fun p => pyLower p.fst = key)

/-- `int(v)` for the digits-only strings the engine feeds it. -/
def pyToInt (v : Pstr) : Option Int :=
  if v ≠ [] ∧ v.all Char.isDigit then
    some (v.foldl (fun n c => n * 10 + (c.toNat - 48)) 0)
  else none

/-- The per-option coercion of `ProjectMode.__init__` (lines 50-57):
booleans accept exactly `yes` / `no`, anything else raises
`InvalidProjectModeOptionValue`. -/
def coerceValue (name : Pstr) (t : OptType) (v : Pstr) : Except PMError OptValue :=
  match t with
  | .tBool =>
    if v = "yes".toList then .ok (.vBool true)
    else if v = "no".toList then .ok (.vBool false)
    else .error (.invalidValue name v)
  | .tInt =>
    match pyToInt v with
    | some i => .ok (.vInt i)
    | none => .error (.conversionError v)
  | .tFloat => .ok (.vFloat v)
  | .tStr => .ok (.vStr v)

/-- The key loop of `ProjectMode.__init__` (lines 45-58): each parsed key
must appear (case-insensitively) in the schema, its value is coerced, and
`setattr` records the typed value under the declared (original-case)
name. -/
def applyOptions (schema : Schema) : List (Pstr × Pstr) →
    Except PMError (List (Pstr × OptValue))
  | [] => .ok []
  | (k, v) :: rest =>
    match schemaFind schema k with
    | none => .error (.unknownOption k)
    | some (name, t) =>
      match coerceValue name t v with
      | .error e => .error e
      | .ok val =>
        match applyOptions schema rest with
        | .error e => .error e
        | .ok attrs => .ok (dictInsert name val attrs)

/-- A constructed `ProjectMode` object: the attributes set by the init
loop.  Any attribute ever set appears here exactly once. -/
structure ProjectModeObj where
  attrs : List (Pstr × OptValue)
deriving Repr, DecidableEq

/-- `ProjectMode.__getattr__` (lines 64-65): attribute lookup on the
parsed object; an attribute that was never `setattr` falls back to the
`__getattr__` hook, which returns `None` (`Option.none`) instead of
raising `AttributeError`.  Total by construction. -/
def ProjectModeObj.getattr (pm : ProjectModeObj) (name : Pstr) : Option OptValue :=
  (pm.attrs.find? (fun p => p.fst = name)).map Prod.snd

/-- `ProjectMode.__init__` up to the coercion loop: parse the option
string, then type and record each option. -/
def buildProjectMode (schema : Schema) (s : Pstr) : Except PMError ProjectModeObj :=
  match parse_project_mode s with
  | .error e => .error e
  | .ok parsed =>
    match applyOptions schema parsed with
    | .error e => .error e
    | .ok attrs => .ok { attrs := attrs }

/-- The keys of `dictInsert k v l`: unchanged when `k` is already bound,
otherwise `k` is appended. -/
theorem dictInsert_keys {α : Type} (k : Pstr) (v : α) (l : List (Pstr × α)) :
    (dictInsert k v l).map Prod.fst =
      if k ∈ l.map Prod.fst then l.map Prod.fst else l.map Prod.fst ++ [k] := by
  induction l with
  | nil => simp [dictInsert]
  | cons p rest ih =>
    obtain ⟨k0, v0⟩ := p
    by_cases h : k0 = k
    · subst h
      simp only [dictInsert, if_true, List.map_cons]
      rw [if_pos (by simp)]
    · simp only [dictInsert, if_neg h, List.map_cons, ih]
      by_cases hm : k ∈ rest.map Prod.fst
      · simp [hm, Ne.symm h]
      · simp [hm, Ne.symm h]

/-- `dictInsert` preserves distinctness of keys. -/
theorem dictInsert_keys_nodup {α : Type} (k : Pstr) (v : α) (l : List (Pstr × α))
    (h : (l.map Prod.fst).Nodup) : ((dictInsert k v l).map Prod.fst).Nodup := by
  rw [dictInsert_keys]
  by_cases hm : k ∈ l.map Prod.fst
  · simpa [hm]
  · simpa [hm, List.nodup_append] using h

/-- Inserting a different key does not change lookup results. -/
theorem dictInsert_find_ne {α : Type} (k name : Pstr) (v : α) (l : List (Pstr × α))
    (h : k ≠ name) :
    ((dictInsert k v l).find? (fun p => p.fst = name)) =
      (l.find? (fun p => p.fst = name)) := by
  induction l with
  | nil => simp [dictInsert, List.find?_cons, h]
  | cons p rest ih =>
    obtain ⟨k0, v0⟩ := p
    by_cases hk : k0 = k
    · subst hk
      simp [dictInsert, List.find?_cons, h]
    · by_cases h0 : k0 = name <;>
        simp [dictInsert, hk, List.find?_cons, h0, ih, h, Ne.symm h]

/-- `parseEntries` preserves distinctness of accumulated keys. -/
theorem parseEntries_nodup (entries : List Pstr) (acc : List (Pstr × Pstr))
    (hacc : (acc.map Prod.fst).Nodup) (res : List (Pstr × Pstr))
    (h : parseEntries entries acc = .ok res) : (res.map Prod.fst).Nodup := by
  induction entries generalizing acc with
  | nil =>
    simp only [parseEntries] at h
    cases h
    exact hacc
  | cons o rest ih =>
    simp only [parseEntries] at h
    by_cases ho : o = []
    · rw [if_pos ho] at h
      exact ih acc hacc h
    · rw [if_neg ho] at h
      by_cases he : '=' ∈ o
      · rw [if_pos he] at h
        exact ih _ (dictInsert_keys_nodup _ _ _ hacc) h
      · rw [if_neg he] at h
        cases h

/-- A successfully parsed project-mode dict has distinct keys. -/
theorem parse_project_mode_nodup (s : Pstr) (parsed : List (Pstr × Pstr))
    (h : parse_project_mode s = .ok parsed) : (parsed.map Prod.fst).Nodup :=
  parseEntries_nodup _ [] (by simp) _ h

/-- If some non-empty entry of the split option string lacks `=`, the
parse loop raises the format error (for some such entry). -/
theorem parseEntries_error_of_bad (entries : List Pstr) (acc : List (Pstr × Pstr))
    (h : ∃ e ∈ entries, e ≠ [] ∧ '=' ∉ e) :
    ∃ o, parseEntries entries acc = .error (.formatError o) ∧ o ≠ [] ∧ '=' ∉ o := by
  induction entries generalizing acc with
  | nil => simp at h
  | cons e rest ih =>
    obtain ⟨x, hx, hx1, hx2⟩ := h
    by_cases he : e = []
    · have hxr : x ∈ rest := by
        rcases List.mem_cons.mp hx with h1 | h1
        · exact absurd (h1 ▸ he) hx1
        · exact h1
      obtain ⟨o, ho1, ho2, ho3⟩ := ih acc ⟨x, hxr, hx1, hx2⟩
      refine ⟨o, ?_, ho2, ho3⟩
      simp only [parseEntries]
      rw [if_pos he]
      exact ho1
    · by_cases heq : '=' ∈ e
      · have hxr : x ∈ rest := by
          rcases List.mem_cons.mp hx with h1 | h1
          · exact absurd (h1 ▸ heq) hx2
          · exact h1
        obtain ⟨o, ho1, ho2, ho3⟩ := ih _ ⟨x, hxr, hx1, hx2⟩
        refine ⟨o, ?_, ho2, ho3⟩
        simp only [parseEntries]
        rw [if_neg he, if_pos heq]
        exact ho1
      · refine ⟨e, ?_, he, heq⟩
        simp only [parseEntries]
        rw [if_neg he, if_neg heq]

/-- Every attribute recorded by the init loop originates from a parsed
key that resolves to it in the schema. -/
theorem applyOptions_attr_origin (schema : Schema) (parsed : List (Pstr × Pstr))
    (attrs : List (Pstr × OptValue)) (h : applyOptions schema parsed = .ok attrs) :
    ∀ name ∈ attrs.map Prod.fst,
      ∃ k t, k ∈ parsed.map Prod.fst ∧ schemaFind schema k = some (name, t) := by
  induction parsed generalizing attrs with
  | nil =>
    simp only [applyOptions] at h
    cases h
    simp
  | cons kv rest ih =>
    obtain ⟨k, v⟩ := kv
    intro name hname
    simp only [applyOptions] at h
    cases hf : schemaFind schema k with
    | none => simp [hf] at h
    | some nt =>
      obtain ⟨n, t⟩ := nt
      simp only [hf] at h
      cases hc : coerceValue n t v with
      | error e => simp [hc] at h
      | ok val =>
        simp only [hc] at h
        cases ha : applyOptions schema rest with
        | error e => simp [ha] at h
        | ok attrs2 =>
          simp only [ha] at h
          cases h
          have := dictInsert_keys n val attrs2
          rw [this] at hname
          by_cases hm : n ∈ attrs2.map Prod.fst
          · rw [if_pos hm] at hname
            obtain ⟨k2, t2, hk2, hs2⟩ := ih attrs2 ha name hname
            exact ⟨k2, t2, by simp [hk2], hs2⟩
          · rw [if_neg hm] at hname
            rcases List.mem_append.mp hname with h1 | h1
            · obtain ⟨k2, t2, hk2, hs2⟩ := ih attrs2 ha name h1
              exact ⟨k2, t2, by simp [hk2], hs2⟩
            · simp only [List.mem_singleton] at h1
              exact ⟨k, t, by simp, h1 ▸ hf⟩

/-- If a prefix of the parsed options is processed successfully and the
next key is unknown, the init loop raises `UnknownProjectModeOption` for
that key, whatever its value. -/
theorem applyOptions_unknown (schema : Schema) (pre : List (Pstr × Pstr))
    (k v : Pstr) (post : List (Pstr × Pstr)) (preA : List (Pstr × OptValue))
    (hpre : applyOptions schema pre = .ok preA) (hk : schemaFind schema k = none) :
    applyOptions schema (pre ++ (k, v) :: post) = .error (.unknownOption k) := by
  induction pre generalizing preA with
  | nil => simp [applyOptions, hk]
  | cons kv rest ih =>
    obtain ⟨k0, v0⟩ := kv
    rw [List.cons_append]
    simp only [applyOptions] at hpre ⊢
    cases hf : schemaFind schema k0 with
    | none => simp [hf] at hpre
    | some nt =>
      obtain ⟨n, t⟩ := nt
      simp only [hf] at hpre ⊢
      cases hc : coerceValue n t v0 with
      | error e => simp [hc] at hpre
      | ok val =>
        simp only [hc] at hpre ⊢
        cases ha : applyOptions schema rest with
        | error e => simp [ha] at hpre
        | ok attrs2 => rw [ih attrs2 ha]

/-- If a prefix is processed successfully and the next key is a
boolean-typed option with a value other than `yes` / `no`, the init loop
raises `InvalidProjectModeOptionValue` naming the declared option. -/
theorem applyOptions_bool_invalid (schema : Schema) (pre : List (Pstr × Pstr))
    (k v K : Pstr) (post : List (Pstr × Pstr)) (preA : List (Pstr × OptValue))
    (hpre : applyOptions schema pre = .ok preA)
    (hk : schemaFind schema k = some (K, .tBool))
    (hv1 : v ≠ "yes".toList) (hv2 : v ≠ "no".toList) :
    applyOptions schema (pre ++ (k, v) :: post) = .error (.invalidValue K v) := by
  induction pre generalizing preA with
  | nil =>
    simp only [List.nil_append, applyOptions, hk, coerceValue]
    rw [if_neg hv1, if_neg hv2]
  | cons kv rest ih =>
    obtain ⟨k0, v0⟩ := kv
    rw [List.cons_append]
    simp only [applyOptions] at hpre ⊢
    cases hf : schemaFind schema k0 with
    | none => simp [hf] at hpre
    | some nt =>
      obtain ⟨n, t⟩ := nt
      simp only [hf] at hpre ⊢
      cases hc : coerceValue n t v0 with
      | error e => simp [hc] at hpre
      | ok val =>
        simp only [hc] at hpre ⊢
        cases ha : applyOptions schema rest with
        | error e => simp [ha] at hpre
        | ok attrs2 => rw [ih attrs2 ha]

/-- If a prefix is processed successfully, the final option is a
boolean-typed key with value `yes` or `no`, and that key is new, the init
loop succeeds and records the corresponding boolean. -/
theorem applyOptions_bool_ok (schema : Schema) (pre : List (Pstr × Pstr))
    (k v K : Pstr) (preA : List (Pstr × OptValue)) (b : Bool)
    (hpre : applyOptions schema pre = .ok preA)
    (hk : schemaFind schema k = some (K, .tBool))
    (hv : (b = true ∧ v = "yes".toList) ∨ (b = false ∧ v = "no".toList)) :
    k ∉ pre.map Prod.fst →
    ∃ attrs, applyOptions schema (pre ++ [(k, v)]) = .ok attrs ∧
      attrs.find? (fun p => p.fst = K) = some (K, .vBool b) := by
  induction pre generalizing preA with
  | nil =>
    intro _
    refine ⟨[(K, .vBool b)], ?_, by simp [List.find?_cons]⟩
    rcases hv with ⟨hb, hv⟩ | ⟨hb, hv⟩ <;>
      simp [applyOptions, hk, coerceValue, hv, hb, dictInsert]
  | cons kv rest ih =>
    intro hknew
    obtain ⟨k0, v0⟩ := kv
    rw [List.cons_append]
    simp only [applyOptions] at hpre ⊢
    cases hf : schemaFind schema k0 with
    | none => simp [hf] at hpre
    | some nt =>
      obtain ⟨n, t⟩ := nt
      simp only [hf] at hpre ⊢
      cases hc : coerceValue n t v0 with
      | error e => simp [hc] at hpre
      | ok val =>
        simp only [hc] at hpre ⊢
        cases ha : applyOptions schema rest with
        | error e => simp [ha] at hpre
        | ok attrs2 =>
          have hknew2 : k ∉ rest.map Prod.fst := by
            intro hmem
            exact hknew (by simp [hmem])
          obtain ⟨attrs, hattrs, hfind⟩ := ih attrs2 ha hknew2
          refine ⟨dictInsert n val attrs, by rw [hattrs], ?_⟩
          have hnK : n ≠ K := by
            intro he
            subst he
            have h1 : pyLower n = k0 := by
              have := List.find?_some hf
              simpa using this
            have h2 : pyLower n = k := by
              have := List.find?_some hk
              simpa using this
            exact hknew (by simp [h1 ▸ h2])
          rw [dictInsert_find_ne _ _ _ _ hnK, hfind]

/-- A sample schema used by concrete witnesses: one declared boolean
option named `Foo`. -/
def sampleSchema : Schema := [("Foo".toList, .tBool)]

/-- C7: For every project-mode option string, an entry with no `=` raises
the configuration (format) error; a key (case-insensitively) absent from
the declared option schema raises the unknown-option error naming the
offending key, for every value of that key; and for a boolean-typed
option, `yes` is coerced to `True`, `no` to `False`, and any other value
raises the typed invalid-value error. -/
theorem c7_option_parser_errors (schema : Schema) :
    (∀ s : Pstr, (∃ e ∈ pySplit ';' (removeChar ' ' s), e ≠ [] ∧ '=' ∉ e) →
      ∃ o, buildProjectMode schema s = .error (.formatError o) ∧ o ≠ [] ∧ '=' ∉ o) ∧
    (∀ s pre k v post preA, parse_project_mode s = .ok (pre ++ (k, v) :: post) →
      applyOptions schema pre = .ok preA → schemaFind schema k = none →
      buildProjectMode schema s = .error (.unknownOption k)) ∧
    (∀ s pre k v K preA, parse_project_mode s = .ok (pre ++ [(k, v)]) →
      applyOptions schema pre = .ok preA → schemaFind schema k = some (K, .tBool) →
      ((v = "yes".toList →
          ∃ pm, buildProjectMode schema s = .ok pm ∧ pm.getattr K = some (.vBool true)) ∧
       (v = "no".toList →
          ∃ pm, buildProjectMode schema s = .ok pm ∧ pm.getattr K = some (.vBool false)) ∧
       (v ≠ "yes".toList → v ≠ "no".toList →
          buildProjectMode schema s = .error (.invalidValue K v)))) := by
  refine ⟨?_, ?_, ?_⟩
  · intro s hbad
    obtain ⟨o, ho1, ho2, ho3⟩ := parseEntries_error_of_bad _ [] hbad
    refine ⟨o, ?_, ho2, ho3⟩
    simp only [buildProjectMode, parse_project_mode] at ho1 ⊢
    rw [ho1]
  · intro s pre k v post preA hp hpre hk
    simp only [buildProjectMode, hp]
    rw [applyOptions_unknown schema pre k v post preA hpre hk]
  · intro s pre k v K preA hp hpre hk
    have hnodup := parse_project_mode_nodup s _ hp
    have hknew : k ∉ pre.map Prod.fst := by
      simp only [List.map_append, List.nodup_append] at hnodup
      intro hmem
      exact hnodup.2.2 hmem (by simp)
    refine ⟨?_, ?_, ?_⟩
    · intro hv
      obtain ⟨attrs, ha, hfind⟩ :=
        applyOptions_bool_ok schema pre k v K preA true hpre hk (Or.inl ⟨rfl, hv⟩) hknew
      refine ⟨⟨attrs⟩, ?_, ?_⟩
      · simp only [buildProjectMode, hp]
        rw [ha]
      · simp [ProjectModeObj.getattr, hfind]
    · intro hv
      obtain ⟨attrs, ha, hfind⟩ :=
        applyOptions_bool_ok schema pre k v K preA false hpre hk (Or.inr ⟨rfl, hv⟩) hknew
      refine ⟨⟨attrs⟩, ?_, ?_⟩
      · simp only [buildProjectMode, hp]
        rw [ha]
      · simp [ProjectModeObj.getattr, hfind]
    · intro hv1 hv2
      simp only [buildProjectMode, hp]
      rw [applyOptions_bool_invalid schema pre k v K [] preA hpre hk hv1 hv2]

/-- Witness for C7 at concrete inputs: a missing `=` entry, an unknown
key, the `yes` coercion, and an invalid boolean value. -/
theorem c7_option_parser_errors_witness :
    (∃ o, buildProjectMode sampleSchema "Foo;".toList = .error (.formatError o) ∧
      o ≠ [] ∧ '=' ∉ o) ∧
    buildProjectMode sampleSchema "baz=1".toList = .error (.unknownOption "baz".toList) ∧
    (∃ pm, buildProjectMode sampleSchema "Foo=yes".toList = .ok pm ∧
      pm.getattr "Foo".toList = some (.vBool true)) ∧
    buildProjectMode sampleSchema "Foo=maybe".toList =
      .error (.invalidValue "Foo".toList "maybe".toList) := by
  obtain ⟨h1, h2, h3⟩ := c7_option_parser_errors sampleSchema
  refine ⟨h1 "Foo;".toList ⟨"Foo".toList, by decide, by decide, by decide⟩, ?_, ?_, ?_⟩
  · exact h2 "baz=1".toList [] "baz".toList "1".toList [] [] rfl rfl rfl
  · exact (h3 "Foo=yes".toList [] "foo".toList "yes".toList "Foo".toList [] rfl rfl rfl).1 rfl
  · exact (h3 "Foo=maybe".toList [] "foo".toList "maybe".toList "Foo".toList [] rfl rfl
      rfl).2.2 (by decide) (by decide)

/-- C10: Reading any attribute of a `ProjectMode` instance that was never
set — every recognized option omitted from the step's project-mode string
and any unrecognized attribute name — returns `None` and never raises
`AttributeError`: lookups are total and absence is `none`. -/
theorem c10_getattr_total (schema : Schema) (s : Pstr) (parsed : List (Pstr × Pstr))
    (pm : ProjectModeObj) (hp : parse_project_mode s = .ok parsed)
    (hb : buildProjectMode schema s = .ok pm) :
    (∀ name, pm.getattr name = none ↔ name ∉ pm.attrs.map Prod.fst) ∧
    (∀ K t, (K, t) ∈ schema → pyLower K ∉ parsed.map Prod.fst → pm.getattr K = none) ∧
    (∀ name, (∀ t, (name, t) ∉ schema) → pm.getattr name = none) := by
  simp only [buildProjectMode, hp] at hb
  have ha : ∃ attrs, applyOptions schema parsed = .ok attrs ∧ pm = ⟨attrs⟩ := by
    cases h : applyOptions schema parsed with
    | error e => rw [h] at hb; cases hb
    | ok attrs => rw [h] at hb; cases hb; exact ⟨attrs, rfl, rfl⟩
  obtain ⟨attrs, hattrs, rfl⟩ := ha
  have hmem : ∀ name, ProjectModeObj.getattr ⟨attrs⟩ name = none ↔
      name ∉ attrs.map Prod.fst := by
    intro name
    simp only [ProjectModeObj.getattr]
    rw [Option.map_eq_none', List.find?_eq_none]
    constructor
    · intro h hk
      obtain ⟨p, hp2, hfst⟩ := List.mem_map.mp hk
      have := h p hp2
      simp [hfst] at this
    · intro h p hp2
      simp only [decide_eq_true_eq]
      intro hfst
      exact h (List.mem_map.mpr ⟨p, hp2, hfst⟩)
  refine ⟨hmem, ?_, ?_⟩
  · intro K t _ homit
    rw [hmem K]
    intro hK
    obtain ⟨k, t2, hk, hs⟩ := applyOptions_attr_origin schema parsed attrs hattrs K hK
    have : pyLower K = k := by
      have := List.find?_some hs
      simpa using this
    exact homit (this ▸ hk)
  · intro name hnot
    rw [hmem name]
    intro hK
    obtain ⟨k, t2, hk, hs⟩ := applyOptions_attr_origin schema parsed attrs hattrs name hK
    exact hnot t2 (List.mem_of_find?_eq_some hs)

/-- Witness for C10 at a concrete input: an empty project-mode string
gives an object on which both the declared option `Foo` and an arbitrary
unknown name read as `none`. -/
theorem c10_getattr_total_witness :
    ProjectModeObj.getattr ⟨[]⟩ "Foo".toList = none ∧
    ProjectModeObj.getattr ⟨[]⟩ "bar".toList = none := by
  have h := c10_getattr_total sampleSchema "".toList [] ⟨[]⟩ rfl rfl
  refine ⟨h.2.1 "Foo".toList .tBool (by simp [sampleSchema]) (by simp), ?_⟩
  refine h.2.2 "bar".toList ?_
  intro t
  cases t <;> decide

end Deft.ProjectMode

namespace Deft.TaskDef

/-!
Embedding of `taskengine/taskdef.py` (`TaskDefinition`) and
`taskengine/taskreg.py` (`TaskRegistration`).  Database query results
(`ProductionTask`, `TTaskRequest`, `JediDataset`, `ProductionDataset`
rows) and external catalog answers (Rucio file counts, AMI events per
file) are inputs to the embedded functions; the Django ORM filters are
embedded as explicit predicates over those rows.
-/

/-- The exception kinds raised by the embedded `TaskDefinition` fragments
(`InvalidMergeException`, `ParentTaskInvalid`, generic `Exception`s,
`TaskDuplicateDetected`, `NoMoreInputFiles`, `NotEnoughEvents`,
`OutputNameMaxLengthException`, `MaxJobsPerTaskLimitExceededException`,
`NumberOfFilesUnavailable`, `UniformDataException`, and the
`ZeroDivisionError` Python raises on division by zero). -/
inductive TDError
  | invalidDataName
  | invalidMerge
  | parentTaskInvalid (taskId : Nat)
  | numberOfFilesUnavailable
  | uniformData
  | maxJobsExceeded
  | zeroDivision
  | extensionsNotAllowed
  | mixedInput
  | taskDuplicateDetected (taskId reasonCode : Nat)
  | partAlreadyProcessed (taskId : Nat)
  | noMoreInputFiles
  | eventsInconsistency
  | outputNameTooLong (name : Pstr)
  | notEnoughEvents
  | emptyContainer
deriving Repr, DecidableEq

/-- `TaskDefinition._check_task_events_consistency` (taskdef.py lines
1563-1572): raise unless one of the two counts divides the other.
Python `%` agrees with `Int.emod` on the positive operands this check is
used with. -/
def check_task_events_consistency (nEventsPerInputFile nEventsPerJob : Int) :
    Except TDError Unit :=
  if nEventsPerInputFile % nEventsPerJob = 0 ∨ nEventsPerJob % nEventsPerInputFile = 0 then
    .ok ()
  else .error .eventsInconsistency

/-- The call-site guard of the consistency check in `create_task_chain`
(taskdef.py lines 2280-2282): run it only when both counts are present in
the task configuration, the check is not skipped, and `nEventsPerInputFile`
is not overridden in project mode. -/
def events_consistency_guard (cfgEventsPerInputFile cfgEventsPerJob : Option Int)
    (skipCheckInputNe projectModeOverridesNEventsPerInputFile : Bool) :
    Except TDError Unit :=
  match cfgEventsPerInputFile, cfgEventsPerJob with
  | some f, some j =>
    if ¬skipCheckInputNe ∧ ¬projectModeOverridesNEventsPerInputFile then
      check_task_events_consistency f j
    else .ok ()
  | _, _ => .ok ()

/-- C4: When a step's task configuration contains both
`nEventsPerInputFile` and `nEventsPerJob`, the check is not skipped, and
`nEventsPerInputFile` is not overridden in project mode, task construction
raises a consistency error exactly when neither value divides the other
evenly; `nEventsPerInputFile=250` with `nEventsPerJob=375` raises, and
with `nEventsPerJob=500` the check passes. -/
theorem c4_events_consistency (f j : Int) (hf : 0 < f) (hj : 0 < j) :
    (events_consistency_guard (some f) (some j) false false =
        .error .eventsInconsistency ↔ ¬(j ∣ f ∨ f ∣ j)) ∧
    events_consistency_guard (some 250) (some 375) false false =
      .error .eventsInconsistency ∧
    events_consistency_guard (some 250) (some 500) false false = .ok () := by
  refine ⟨?_, by decide, by decide⟩
  simp only [events_consistency_guard, check_task_events_consistency]
  constructor
  · intro h hc
    have hz : f % j = 0 ∨ j % f = 0 := by
      rcases hc with hc | hc
      · exact Or.inl (Int.emod_eq_zero_of_dvd hc)
      · exact Or.inr (Int.emod_eq_zero_of_dvd hc)
    rw [if_pos hz] at h
    cases h
  · intro h
    have h1 : ¬(f % j = 0) := fun hz => h (Or.inl (Int.dvd_of_emod_eq_zero hz))
    have h2 : ¬(j % f = 0) := fun hz => h (Or.inr (Int.dvd_of_emod_eq_zero hz))
    simp [h1, h2]

/-- Witness for C4 at `f = 250`: the iff holds there, and the two
concrete instances evaluate as the claim states. -/
theorem c4_events_consistency_witness :
    (0 : Int) < 250 ∧ (0 : Int) < 375 ∧
    (events_consistency_guard (some 250) (some 375) false false =
        .error .eventsInconsistency ↔ ¬((375 : Int) ∣ 250 ∨ (250 : Int) ∣ 375)) ∧
    events_consistency_guard (some 250) (some 375) false false =
      .error .eventsInconsistency ∧
    events_consistency_guard (some 250) (some 500) false false = .ok () := by
  obtain ⟨h1, h2, h3⟩ := c4_events_consistency 250 375 (by decide) (by decide)
  exact ⟨by decide, by decide, h1, h2, h3⟩

/-- The named groups captured by
`TaskDefConstants.DEFAULT_DATA_NAME_PATTERN`. -/
structure DataNameDict where
  project : Pstr
  number : Pstr
  brief : Pstr
  prod_step : Pstr
  data_type : Pstr
  version : Pstr
  container : Bool
deriving Repr, DecidableEq

/-- The `\w` character class of the data-name pattern. -/
def isWordChar (c : Char) : Bool := c.isAlphanum || c = '_'

/-- `TaskDefinition.parse_data_name` (taskdef.py lines 305-312), matching
`DEFAULT_DATA_NAME_PATTERN` (protocol lines 434-441): an optional scope
prefix up to the last colon, four to six dot-separated word-character
fields (`project.number.brief.prod_step[.data_type[.version]]`), and an
optional trailing `/` marking a container.  A non-matching name raises
the invalid-data-name exception. -/
def parse_data_name (name : Pstr) : Except TDError DataNameDict :=
  let noScope := afterLastColon name
  let isCont := noScope.getLast? = some '/'
  let core := if isCont then noScope.dropLast else noScope
  let parts := pySplit '.' core
  if 4 ≤ parts.length ∧ parts.length ≤ 6 ∧
      parts.all (fun p => p ≠ [] ∧ p.all isWordChar) then
    .ok { project := parts.getD 0 [], number := parts.getD 1 [],
          brief := parts.getD 2 [], prod_step := parts.getD 3 [],
          data_type := parts.getD 4 [], version := parts.getD 5 [],
          container := isCont }
  else .error .invalidDataName

/-- The merge 1:1 rejection of `_check_task_input` (taskdef.py lines
1071-1089): for a `merge` production step whose primary input dataset
version (with any `_tid` suffix stripped) ends with the step's own
configuration tag, the candidate is rejected as a 1:1 merge unless the
per-job and per-input-file event counts are positive and different, or
more than one file per job, or a positive GB-per-job count, is
configured. -/
def check_merge_one_to_one (prodStep ctagName dsn : Pstr)
    (nEventsPerJob nEventsPerInputFile nFilesPerJob nGBPerJob : Int) :
    Except TDError Unit :=
  if pyLower prodStep = "merge".toList then
    match parse_data_name dsn with
    | .error e => .error e
    | .ok d =>
      if ctagName.isSuffixOf (takeBeforeSub "_tid".toList d.version) then
        let isOneToOne : Bool :=
          if 0 < nEventsPerJob ∧ 0 < nEventsPerInputFile then
            nEventsPerJob = nEventsPerInputFile
          else if 1 < nFilesPerJob then false
          else if 0 < nGBPerJob then false
          else true
        if isOneToOne then .error .invalidMerge else .ok ()
      else .ok ()
  else .ok ()

/-- Counterexample for C5: two concrete merge candidates with equal
per-job and per-input-file event counts that `_check_task_input` accepts:
one whose input dataset version does not end with the step's tag, and one
with both counts zero but `nFilesPerJob > 1`. -/
theorem c5_merge_one_to_one_counterexample :
    check_merge_one_to_one "merge".toList "z123".toList
      "mc16_13TeV.100042.brief.merge.AOD.e100_q999".toList 50 50 0 0 = .ok () ∧
    check_merge_one_to_one "merge".toList "z123".toList
      "mc16_13TeV.100042.brief.merge.AOD.e100_z123".toList 0 0 5 0 = .ok () := by
  constructor <;> rfl

/-- C5 (amended): a candidate merge task whose primary input dataset
version (with any `_tid` suffix stripped) ends with the step's
configuration tag and whose per-job and per-input-file event counts are
positive and equal always raises the merge rejection error during input
checking, regardless of the remaining parameters. -/
theorem c5_merge_one_to_one_amended (prodStep ctagName dsn : Pstr) (d : DataNameDict)
    (nEventsPerJob nEventsPerInputFile nFilesPerJob nGBPerJob : Int)
    (hstep : pyLower prodStep = "merge".toList)
    (hparse : parse_data_name dsn = .ok d)
    (hver : ctagName.isSuffixOf (takeBeforeSub "_tid".toList d.version) = true)
    (hej : 0 < nEventsPerJob) (hef : 0 < nEventsPerInputFile)
    (heq : nEventsPerJob = nEventsPerInputFile) :
    check_merge_one_to_one prodStep ctagName dsn
      nEventsPerJob nEventsPerInputFile nFilesPerJob nGBPerJob = .error .invalidMerge := by
  simp only [check_merge_one_to_one, hstep, hparse, hver]
  simp [hej, hef, heq]

/-- Witness for C5 (amended) at a concrete merge candidate. -/
theorem c5_merge_one_to_one_amended_witness :
    check_merge_one_to_one "Merge".toList "z123".toList
      "mc16_13TeV.100042.brief.merge.AOD.e100_z123".toList 50 50 7 3 =
      .error .invalidMerge := by
  refine c5_merge_one_to_one_amended "Merge".toList "z123".toList
    "mc16_13TeV.100042.brief.merge.AOD.e100_z123".toList
    { project := "mc16_13TeV".toList, number := "100042".toList, brief := "brief".toList,
      prod_step := "merge".toList, data_type := "AOD".toList,
      version := "e100_z123".toList, container := false }
    50 50 7 3 (by decide) (by decide) (by decide) (by decide) (by decide) rfl

/-- A primary input job parameter (`_get_primary_input` result): dataset
name plus the mutable file offset. -/
structure PrimaryInput where
  dataset : Pstr
  offset : Int
deriving Repr, DecidableEq

/-- The candidate task fields read by `_check_task_input`:
`task.get('nEventsPerJob', 0)` and friends (a missing key reads as 0). -/
structure CandidateTask where
  primaryInput : Option PrimaryInput
  nEventsPerJob : Int
  nEventsPerInputFile : Int
  nFilesPerJob : Int
  nGBPerJob : Int
deriving Repr, DecidableEq

/-- The task-configuration entries read by `_check_task_input`. -/
structure TaskConfig where
  nEventsPerInputFile : Option Int
  nEventsPerJob : Option Int
deriving Repr, DecidableEq

/-- The step fields read by the duplicate scan: the owning request's
project, the step template's configuration tag and output formats. -/
structure StepCtx where
  project : Pstr
  ctag : Pstr
  outputFormats : Pstr
deriving Repr, DecidableEq

/-- The terminal statuses excluded everywhere
(`['failed', 'broken', 'aborted', 'obsolete', 'toabort']`). -/
def badStatuses : List Pstr :=
  ["failed".toList, "broken".toList, "aborted".toList, "obsolete".toList, "toabort".toList]

/-- The ProdSys1 statuses excluded by the `TTaskRequest` query
(`['failed', 'broken', 'aborted', 'obsolete']`). -/
def ps1BadStatuses : List Pstr :=
  ["failed".toList, "broken".toList, "aborted".toList, "obsolete".toList]

/-- A legacy (`TTaskRequest`, ProdSys1) task row as read by the duplicate
scan of `_check_task_input` (taskdef.py lines 1178-1187). -/
structure PS1Task where
  reqid : Nat
  status : Pstr
  project : Pstr
  inputdataset : Pstr
  ctag : Pstr
  formats : Pstr
  totalEvents : Int
  eventsPerFile : Int
  totalReqJobs : Int
deriving Repr, DecidableEq

/-- The `TTaskRequest` query filter (lines 1178-1182): non-terminal
status, same project, same input dataset name, same tag and the exact
same output-format string. -/
def ps1_matches (step : StepCtx) (inputDataName : Pstr) (t : PS1Task) : Prop :=
  t.status ∉ ps1BadStatuses ∧ t.project = step.project ∧
  t.inputdataset = inputDataName ∧ t.ctag = step.ctag ∧ t.formats = step.outputFormats

instance (step : StepCtx) (inputDataName : Pstr) (t : PS1Task) :
    Decidable (ps1_matches step inputDataName t) := by
  unfold ps1_matches
  infer_instance

/-- Python `x or 0` on an integer. -/
def pyOrZero (x : Int) : Int := if x = 0 then 0 else x

/-- The consumed-file estimate for one ProdSys1 row (line 1185-1187):
`int(((total_events / events_per_file) / total_req_jobs or 0) * total_req_jobs or 0)`
with Python 2 floor division.  Both divisors are positive on real rows;
a zero divisor would raise `ZeroDivisionError` in the source and is
reported as such by the caller below. -/
def ps1_used_files (t : PS1Task) : Int :=
  pyOrZero (pyOrZero ((t.totalEvents.fdiv t.eventsPerFile).fdiv t.totalReqJobs) * t.totalReqJobs)

/-- The ProdSys1 part of the scan: accumulate the consumed-file estimate
over the matching rows, raising `ZeroDivisionError` where Python would. -/
def ps1Scan (step : StepCtx) (inputDataName : Pstr) : List PS1Task → Except TDError Int
  | [] => .ok 0
  | t :: rest =>
    if ps1_matches step inputDataName t then
      if t.eventsPerFile = 0 ∨ t.totalReqJobs = 0 then .error .zeroDivision
      else
        match ps1Scan step inputDataName rest with
        | .error e => .error e
        | .ok n => .ok (ps1_used_files t + n)
    else ps1Scan step inputDataName rest

/-- A current-generation (`ProductionTask` join `TTask`) row as read by
the duplicate scan (lines 1189-1310): status and identification fields,
the owning slice's input fields, the `use_real_nevents` flag and primary
input dataset of its stored JEDI parameters, the optional stored `nFiles`
/ per-job / per-input-file counts, and the `JediDataset` row for the
candidate's primary input when one exists (`number_files_finished`,
`nfiles`). -/
structure ExistingTask where
  id : Nat
  status : Pstr
  project : Pstr
  ctag : Pstr
  outputFormats : Pstr
  sliceInputDataset : Pstr
  sliceInputData : Pstr
  inputdataset : Pstr
  useRealNevents : Bool
  primaryDataset : Pstr
  nFiles : Option Int
  nEventsPerJob : Option Int
  nEventsPerInputFile : Option Int
  jediFilesFinished : Option Int
  jediNFiles : Option Int
deriving Repr, DecidableEq

/-- The `ProductionTask` query filter (lines 1189-1202): non-terminal
status, same project, same tag, and the input-name disjunction (exact
match on the task's input dataset or slice input fields, or substring
containment of the scope- and container-stripped input name). -/
def ps2_matches (step : StepCtx) (inputDataName : Pstr) (t : ExistingTask) : Prop :=
  t.status ∉ badStatuses ∧ t.project = step.project ∧ t.ctag = step.ctag ∧
  (t.inputdataset = inputDataName ∨
   pyContains t.inputdataset (afterLastColon (beforeFirstSlash inputDataName)) = true ∨
   t.sliceInputDataset = inputDataName ∨
   pyContains t.sliceInputDataset (afterLastColon (beforeFirstSlash inputDataName)) = true ∨
   t.sliceInputData = inputDataName ∨
   pyContains t.sliceInputData (afterLastColon (beforeFirstSlash inputDataName)) = true)

instance (step : StepCtx) (inputDataName : Pstr) (t : ExistingTask) :
    Decidable (ps2_matches step inputDataName t) := by
  unfold ps2_matches
  infer_instance

/-- The `^.+_tid(?P<tid>\d+)_00$` test (case-insensitive) of lines
1236-1237: a non-empty prefix, then `_tid`, one or more digits, and a
final `_00`. -/
def isTidDsn (s : Pstr) : Bool :=
  let l := pyLower s
  "_00".toList.isSuffixOf l &&
    (let mid := l.take (l.length - 3)
     (List.range mid.length).any (fun i =>
       decide (0 < i) && "_tid".toList.isPrefixOf (mid.drop i) &&
       (let ds := mid.drop (i + 4)
        !ds.isEmpty && ds.all Char.isDigit)))

/-- The requested/previous output-format comparison of lines 1206-1209. -/
def processedOutputTypes (step : StepCtx) (t : ExistingTask) : List Pstr :=
  (pySplit '.' step.outputFormats).filter (fun e => e ∈ pySplit '.' t.outputFormats)

/-- One iteration of the duplicate-scan loop of `_check_task_input`
(lines 1204-1314) for a task that passed the query filter: returns the
row's contribution to `number_of_input_files_used`, or the exception the
iteration raises.  Skipped rows (no output-format overlap, `_Cont`
container input, or a different primary dataset) contribute 0.
`int(float(a)/float(b)*n)` is embedded as exact integer arithmetic
`(a*n).fdiv b`; the operands are non-negative on real rows. -/
def dupScanOne (step : StepCtx) (inputDataName currentDsn : Pstr) (t : ExistingTask) :
    Except TDError Int :=
  if processedOutputTypes step t = [] then .ok 0
  else if pyContains t.sliceInputDataset
      (afterLastColon (beforeFirstSlash inputDataName) ++ "_Cont".toList) then .ok 0
  else if t.useRealNevents then .error .extensionsNotAllowed
  else
    let previousNoScope := afterLastColon t.primaryDataset
    let currentNoScope := afterLastColon currentDsn
    if isTidDsn currentNoScope ≠ isTidDsn previousNoScope ∧ isTidDsn currentNoScope = false then
      .error .mixedInput
    else if currentNoScope ≠ previousNoScope then .ok 0
    else if t.status = "done".toList then
      match t.nFiles with
      | some n => .ok n
      | none =>
        match t.nEventsPerJob, t.nEventsPerInputFile with
        | some nej, some nepif =>
          match t.jediFilesFinished with
          | some nff => if nepif = 0 then .error .zeroDivision else .ok ((nej * nff).fdiv nepif)
          | none =>
            if currentDsn = t.primaryDataset then .error (.partAlreadyProcessed t.id)
            else .ok 0
        | _, _ => .error (.taskDuplicateDetected t.id 1)
    else if t.status = "finished".toList then
      match t.nFiles with
      | some n => .ok n
      | none =>
        match t.nEventsPerJob, t.nEventsPerInputFile with
        | some nej, some nepif =>
          match t.jediNFiles with
          | some nf => if nepif = 0 then .error .zeroDivision else .ok ((nej * nf).fdiv nepif)
          | none =>
            if currentDsn = t.primaryDataset then .error (.partAlreadyProcessed t.id)
            else .ok 0
        | _, _ => .error (.taskDuplicateDetected t.id 3)
    else
      match t.nFiles with
      | some n => .ok n
      | none => .error (.taskDuplicateDetected t.id 2)

/-- The full duplicate-scan loop over the current-generation query
result, accumulating `number_of_input_files_used`. -/
def dupScan (step : StepCtx) (inputDataName currentDsn : Pstr) :
    List ExistingTask → Except TDError Int
  | [] => .ok 0
  | t :: rest =>
    if ps2_matches step inputDataName t then
      match dupScanOne step inputDataName currentDsn t with
      | .error e => .error e
      | .ok n =>
        match dupScan step inputDataName currentDsn rest with
        | .error e => .error e
        | .ok m => .ok (n + m)
    else dupScan step inputDataName currentDsn rest

/-- `'%.08d' % id`: the zero-padded task id used in dataset names. -/
def formatTaskId (id : Nat) : Pstr :=
  let ds := (Nat.repr id).toList
  List.replicate (8 - ds.length) '0' ++ ds

/-- The environment of one `_check_task_input` call: the candidate task,
its step and configuration, and the answers of the database and catalog
lookups the function performs (`ProductionDataset`/`ProductionTask` for
the parent of the primary input, `get_events_per_file`, Rucio
`get_number_files` with `none` for a raised lookup, the
`verify_data_uniform` outcome, and the two historical task stores).
The `task_common_offset` hashtag branch (lines 1153-1172) only writes the
local `primary_input_offset`, which is never read after line 1171, so it
cannot affect the outcome and is not a field here; `primaryInputOffset`
is likewise dead in the source but kept for signature fidelity. -/
structure CheckEnv where
  task : CandidateTask
  numberOfEvents : Int
  taskConfig : TaskConfig
  parentTaskId : Nat
  inputDataName : Pstr
  step : StepCtx
  primaryInputOffset : Int
  prodStep : Pstr
  reuseInput : Bool
  parentDatasetTask : Option (Option (Nat × Pstr))
  catalogEventsPerFile : Int
  rucioTotalFiles : Option Int
  dataUniformOk : Bool
  ps1Tasks : List PS1Task
  existingTasks : List ExistingTask
deriving Repr, DecidableEq

/-- Continuation of `check_pre_stages` after the parent-status check. -/
def check_pre_stages_b (env : CheckEnv) (pin : PrimaryInput) :
    Except TDError (Int × Int × Int) :=
  let nepifEff := env.taskConfig.nEventsPerInputFile.getD env.catalogEventsPerFile
  match (match env.rucioTotalFiles with
         | some n => Except.ok n
         | none =>
           if ("_tid".toList ++ formatTaskId env.parentTaskId ++ "_00".toList).isSuffixOf
               pin.dataset then Except.ok 0
           else Except.error TDError.numberOfFilesUnavailable) with
  | .error e => .error e
  | .ok total =>
    if 0 < total ∧ env.dataUniformOk = false then .error .uniformData
    else
      match (if 0 < env.numberOfEvents ∧ env.taskConfig.nEventsPerJob.isSome then
               match env.taskConfig.nEventsPerJob with
               | some nej =>
                 if nej = 0 then Except.error TDError.zeroDivision
                 else Except.ok (env.numberOfEvents.fdiv nej)
               | none => Except.ok 0
             else if env.taskConfig.nEventsPerJob.isSome ∧ 0 < total then
               match env.taskConfig.nEventsPerJob with
               | some nej =>
                 if nej = 0 then Except.error TDError.zeroDivision
                 else Except.ok ((total * nepifEff).fdiv nej)
               | none => Except.ok 0
             else Except.ok 0) with
      | .error e => .error e
      | .ok numberOfJobs =>
        if 200000 < numberOfJobs then .error .maxJobsExceeded
        else
          match ps1Scan env.step env.inputDataName env.ps1Tasks with
          | .error e => .error e
          | .ok used1 =>
            match dupScan env.step env.inputDataName pin.dataset env.existingTasks with
            | .error e => .error e
            | .ok used2 =>
              let used := used1 + used2
              if 0 < env.numberOfEvents then
                if nepifEff = 0 then .error .zeroDivision
                else .ok (env.numberOfEvents.fdiv nepifEff, used, total)
              else .ok (total - used, used, total)

/-- The stages of `_check_task_input` (lines 1071-1335) before the final
reuse/file-count decision, in source order: the merge 1:1 check, the
parent-dataset status check (a lost-files condition is only logged), the
`nEventsPerInputFile` fallback to the catalog, the total-file-count
lookup with its `_tid<parent>_00` fallback, the uniform-data
verification, the job-count ceiling, the two historical scans, and the
requested-file-count computation of lines 1332-1335.  Returns
`(requested, used, total)`. -/
def check_pre_stages (env : CheckEnv) (pin : PrimaryInput) :
    Except TDError (Int × Int × Int) :=
  match check_merge_one_to_one env.prodStep env.step.ctag pin.dataset
      env.task.nEventsPerJob env.task.nEventsPerInputFile
      env.task.nFilesPerJob env.task.nGBPerJob with
  | .error e => .error e
  | .ok _ =>
    match env.parentDatasetTask with
    | some (some (tid, st)) =>
      if st ∈ badStatuses then .error (.parentTaskInvalid tid)
      else check_pre_stages_b env pin
    | _ => check_pre_stages_b env pin

/-- The outcome of a successful `_check_task_input`: the primary input
offset it assigns and the consumed-file total it computed. -/
structure CheckOutcome where
  primaryOffset : Int
  usedFiles : Int
deriving Repr, DecidableEq

/-- `TaskDefinition._check_task_input` (taskdef.py lines 1063-1369): no
primary input skips the check; otherwise the pre-stages run, then
`reuse_input` returns with offset 0 (line 1337-1342), and otherwise the
requested-plus-used count must fit into the total (lines 1344-1351,
`NoMoreInputFiles`), the primary offset becoming the consumed-file count
(line 1353).  The trailing evgen/random-seed offset assignments mutate
other job parameters and are outside the modelled outcome. -/
def check_task_input (env : CheckEnv) : Except TDError CheckOutcome :=
  match env.task.primaryInput with
  | none => .ok { primaryOffset := env.primaryInputOffset, usedFiles := 0 }
  | some pin =>
    match check_pre_stages env pin with
    | .error e => .error e
    | .ok (requested, used, total) =>
      if env.reuseInput then .ok { primaryOffset := 0, usedFiles := used }
      else if total < requested + used ∨ requested < 0 then .error .noMoreInputFiles
      else .ok { primaryOffset := used, usedFiles := used }

/-- If every task matched by the query has no output-format overlap with
the step, the whole scan accepts and accumulates nothing. -/
theorem dupScan_skip_of_no_overlap (step : StepCtx) (inputDataName currentDsn : Pstr)
    (ts : List ExistingTask)
    (h : ∀ t ∈ ts, ps2_matches step inputDataName t → processedOutputTypes step t = []) :
    dupScan step inputDataName currentDsn ts = .ok 0 := by
  induction ts with
  | nil => rfl
  | cons t rest ih =>
    have hrest := ih (fun u hu hm => h u (by simp [hu]) hm)
    simp only [dupScan]
    by_cases hm : ps2_matches step inputDataName t
    · rw [if_pos hm]
      have hskip : processedOutputTypes step t = [] := h t (by simp) hm
      simp [dupScanOne, hskip, hrest]
    · rw [if_neg hm]
      exact hrest

/-- The scan raises exactly when some task matched by the query makes its
loop iteration raise. -/
theorem dupScan_isOk_iff (step : StepCtx) (inputDataName currentDsn : Pstr)
    (ts : List ExistingTask) :
    (dupScan step inputDataName currentDsn ts).isOk = false ↔
      ∃ t ∈ ts, ps2_matches step inputDataName t ∧
        (dupScanOne step inputDataName currentDsn t).isOk = false := by
  induction ts with
  | nil => simp [dupScan, Except.isOk, Except.toBool]
  | cons t rest ih =>
    simp only [dupScan]
    by_cases hm : ps2_matches step inputDataName t
    · rw [if_pos hm]
      cases h1 : dupScanOne step inputDataName currentDsn t with
      | error e =>
        simp only [Except.isOk, Except.toBool, List.mem_cons]
        constructor
        · intro _
          exact ⟨t, Or.inl rfl, hm, by simp [h1, Except.isOk, Except.toBool]⟩
        · intro _
          trivial
      | ok n =>
        cases h2 : dupScan step inputDataName currentDsn rest with
        | error e =>
          simp only [Except.isOk, Except.toBool, List.mem_cons]
          constructor
          · intro _
            have : ∃ u ∈ rest, ps2_matches step inputDataName u ∧
                (dupScanOne step inputDataName currentDsn u).isOk = false := by
              rw [← ih, h2]
              rfl
            obtain ⟨u, hu, hmu, hku⟩ := this
            exact ⟨u, Or.inr hu, hmu, hku⟩
          · intro _
            trivial
        | ok m =>
          simp only [Except.isOk, Except.toBool, List.mem_cons]
          constructor
          · intro hfalse
            cases hfalse
          · rintro ⟨u, hu | hu, hmu, hku⟩
            · subst hu
              rw [h1] at hku
              cases hku
            · have : (dupScan step inputDataName currentDsn rest).isOk = false :=
                (ih.mpr ⟨u, hu, hmu, hku⟩)
              rw [h2] at this
              cases this
    · rw [if_neg hm]
      rw [ih]
      constructor
      · rintro ⟨u, hu, hmu, hku⟩
        exact ⟨u, by simp [hu], hmu, hku⟩
      · rintro ⟨u, hu, hmu, hku⟩
        rcases List.mem_cons.mp hu with h1 | h1
        · subst h1
          exact absurd hmu hm
        · exact ⟨u, h1, hmu, hku⟩

/-- A concrete primary input dataset name used by the C1 scenario. -/
def sampleDupInput : Pstr := "mc16_13TeV:mc16_13TeV.100042.brief.recon.AOD.e100".toList

/-- The step of the C1 scenario: project `mc16_13TeV`, tag `r9999`,
requested output formats `AOD.ESD`. -/
def sampleDupStep : StepCtx :=
  { project := "mc16_13TeV".toList, ctag := "r9999".toList,
    outputFormats := "AOD.ESD".toList }

/-- An existing running task over the same input, tag and project whose
stored parameters carry `nFiles = 2` (consumed-file accounting present). -/
def sampleDupTask : ExistingTask :=
  { id := 7, status := "running".toList, project := "mc16_13TeV".toList,
    ctag := "r9999".toList, outputFormats := "AOD".toList,
    sliceInputDataset := "x".toList, sliceInputData := "x".toList,
    inputdataset := sampleDupInput, useRealNevents := false,
    primaryDataset := sampleDupInput, nFiles := some 2,
    nEventsPerJob := none, nEventsPerInputFile := none,
    jediFilesFinished := none, jediNFiles := none }

/-- The same existing task without any stored accounting
(`nFiles` absent). -/
def sampleDupTaskNoAcc : ExistingTask :=
  { sampleDupTask with nFiles := none }

/-- An existing task over the same input whose output formats (`HIST`)
do not intersect the step's requested formats. -/
def sampleNoOverlapTask : ExistingTask :=
  { sampleDupTask with outputFormats := "HIST".toList }

/-- The full `_check_task_input` environment of the C1 scenario: a
candidate requesting 100 events (1 file of 100 events) against a
10-file input of which the existing task consumed 2 files. -/
def sampleDupEnv : CheckEnv :=
  { task := { primaryInput := some ({ dataset := sampleDupInput, offset := 0 }),
              nEventsPerJob := 100, nEventsPerInputFile := 100, nFilesPerJob := 0,
              nGBPerJob := 0 },
    numberOfEvents := 100,
    taskConfig := { nEventsPerInputFile := some 100, nEventsPerJob := some 100 },
    parentTaskId := 0, inputDataName := sampleDupInput, step := sampleDupStep,
    primaryInputOffset := 0, prodStep := "recon".toList, reuseInput := false,
    parentDatasetTask := none, catalogEventsPerFile := 100, rucioTotalFiles := some 10,
    dataUniformOk := true, ps1Tasks := [], existingTasks := [sampleDupTask] }

/-- Counterexample for C1: an existing non-terminal task that shares the
project, tag and primary input with the candidate and whose output
formats intersect the requested ones, yet `_check_task_input` accepts
the candidate (no duplication error), because the match's stored
`nFiles` provides consumed-file accounting and the request still fits
into the remaining input. -/
theorem c1_duplicate_detection_counterexample :
    ps2_matches sampleDupStep sampleDupInput sampleDupTask ∧
    sampleDupTask.status ∉ badStatuses ∧
    processedOutputTypes sampleDupStep sampleDupTask ≠ [] ∧
    afterLastColon sampleDupInput = afterLastColon sampleDupTask.primaryDataset ∧
    check_task_input sampleDupEnv = .ok { primaryOffset := 2, usedFiles := 2 } := by
  exact ⟨by decide, by decide, by decide, by decide, rfl⟩

/-- C1 (amended): the duplicate scan skips every match with an empty
output-format intersection and accepts (contributing nothing); the scan
raises exactly when some matched task's iteration raises; a matched task
with an overlap, no `_Cont` container input and the same scope-stripped
primary input contributes its stored `nFiles` when present and otherwise
raises a duplication error when its record lacks consumed-file
accounting (status outside done/finished, or the per-job/per-input-file
pair absent, or the pair present but no JEDI dataset row for the
identical input); a pre-stage error aborts task construction. -/
theorem c1_duplicate_detection_amended (step : StepCtx) (inputDataName currentDsn : Pstr) :
    (∀ ts, (∀ t ∈ ts, ps2_matches step inputDataName t → processedOutputTypes step t = []) →
       dupScan step inputDataName currentDsn ts = .ok 0) ∧
    (∀ ts, (dupScan step inputDataName currentDsn ts).isOk = false ↔
       ∃ t ∈ ts, ps2_matches step inputDataName t ∧
         (dupScanOne step inputDataName currentDsn t).isOk = false) ∧
    (∀ t : ExistingTask,
       processedOutputTypes step t ≠ [] →
       pyContains t.sliceInputDataset
         (afterLastColon (beforeFirstSlash inputDataName) ++ "_Cont".toList) = false →
       t.useRealNevents = false →
       afterLastColon currentDsn = afterLastColon t.primaryDataset →
       ((∀ n, t.nFiles = some n →
           dupScanOne step inputDataName currentDsn t = .ok n) ∧
        (t.nFiles = none → t.status ≠ "done".toList → t.status ≠ "finished".toList →
           dupScanOne step inputDataName currentDsn t =
             .error (.taskDuplicateDetected t.id 2)) ∧
        (t.nFiles = none → t.status = "done".toList →
           (t.nEventsPerJob = none ∨ t.nEventsPerInputFile = none) →
           dupScanOne step inputDataName currentDsn t =
             .error (.taskDuplicateDetected t.id 1)) ∧
        (t.nFiles = none → t.status = "finished".toList →
           (t.nEventsPerJob = none ∨ t.nEventsPerInputFile = none) →
           dupScanOne step inputDataName currentDsn t =
             .error (.taskDuplicateDetected t.id 3)) ∧
        (t.nFiles = none → t.status = "done".toList → t.jediFilesFinished = none →
           t.nEventsPerJob.isSome = true → t.nEventsPerInputFile.isSome = true →
           currentDsn = t.primaryDataset →
           dupScanOne step inputDataName currentDsn t =
             .error (.partAlreadyProcessed t.id)))) ∧
    (∀ (env : CheckEnv) (pin : PrimaryInput) (e : TDError),
       env.task.primaryInput = some pin →
       check_pre_stages env pin = .error e → check_task_input env = .error e) := by
  refine ⟨dupScan_skip_of_no_overlap step inputDataName currentDsn,
    dupScan_isOk_iff step inputDataName currentDsn, ?_, ?_⟩
  · intro t hover hcont hreal hsame
    have htid : ¬(isTidDsn (afterLastColon currentDsn) ≠
        isTidDsn (afterLastColon t.primaryDataset) ∧
        isTidDsn (afterLastColon currentDsn) = false) := by
      rw [hsame]
      simp
    have hnoskip : ¬(afterLastColon currentDsn ≠ afterLastColon t.primaryDataset) := by
      simp [hsame]
    refine ⟨?_, ?_, ?_, ?_, ?_⟩
    · intro n hn
      simp only [dupScanOne]
      rw [if_neg hover, if_neg (by simpa using hcont), if_neg (by simpa using hreal),
        if_neg htid, if_neg hnoskip]
      by_cases hd : t.status = "done".toList
      · rw [if_pos hd, hn]
      · rw [if_neg hd]
        by_cases hfin : t.status = "finished".toList
        · rw [if_pos hfin, hn]
        · rw [if_neg hfin, hn]
    · intro hnf hdone hfin
      simp only [dupScanOne]
      rw [if_neg hover, if_neg (by simpa using hcont), if_neg (by simpa using hreal),
        if_neg htid, if_neg hnoskip, if_neg hdone, if_neg hfin, hnf]
    · intro hnf hdone hpair
      simp only [dupScanOne]
      rw [if_neg hover, if_neg (by simpa using hcont), if_neg (by simpa using hreal),
        if_neg htid, if_neg hnoskip, if_pos hdone, hnf]
      rcases hpair with hp | hp <;> rw [hp] <;> cases t.nEventsPerJob <;>
        cases t.nEventsPerInputFile <;> rfl
    · intro hnf hfin hpair
      have hdone : t.status ≠ "done".toList := by
        rw [hfin]
        decide
      simp only [dupScanOne]
      rw [if_neg hover, if_neg (by simpa using hcont), if_neg (by simpa using hreal),
        if_neg htid, if_neg hnoskip, if_neg hdone, if_pos hfin, hnf]
      rcases hpair with hp | hp <;> rw [hp] <;> cases t.nEventsPerJob <;>
        cases t.nEventsPerInputFile <;> rfl
    · intro hnf hdone hjedi hej hef hsamefull
      simp only [dupScanOne]
      rw [if_neg hover, if_neg (by simpa using hcont), if_neg (by simpa using hreal),
        if_neg htid, if_neg hnoskip, if_pos hdone, hnf]
      cases hj : t.nEventsPerJob with
      | none => rw [hj] at hej; cases hej
      | some nej =>
        cases hf : t.nEventsPerInputFile with
        | none => rw [hf] at hef; cases hef
        | some nepif =>
          simp [hjedi, hsamefull]
  · intro env pin e hpin hpre
    simp only [check_task_input, hpin, hpre]

/-- Witness for C1 (amended) at concrete inputs: a no-overlap match is
skipped and the scan accepts; a matching running task without stored
accounting raises the duplication error. -/
theorem c1_duplicate_detection_amended_witness :
    dupScan sampleDupStep sampleDupInput sampleDupInput [sampleNoOverlapTask] = .ok 0 ∧
    dupScanOne sampleDupStep sampleDupInput sampleDupInput sampleDupTaskNoAcc =
      .error (.taskDuplicateDetected 7 2) := by
  obtain ⟨h1, _, h3, _⟩ :=
    c1_duplicate_detection_amended sampleDupStep sampleDupInput sampleDupInput
  refine ⟨h1 [sampleNoOverlapTask] (by decide), ?_⟩
  exact (h3 sampleDupTaskNoAcc (by decide) (by decide) (by decide)
    (by decide)).2.1 (by decide) (by decide) (by decide)

/-- One approved step as seen by the per-request loop of
`_define_tasks_for_requests`: its id, whether `get_step_output(step.id,
exclude_failed=False)` is non-empty (any registered task, line 4648), and
the `_check_task_input` environment of the candidate its chain would
produce.  The chain walking and parameter rendering between step
selection and input checking are not re-modelled here: the claim under
study concerns which steps are selected and how their candidates fare in
the input check. -/
structure EngineStep where
  id : Nat
  hasRegisteredOutput : Bool
  env : CheckEnv
deriving Repr, DecidableEq

/-- The step-selection loop (taskdef.py lines 4636-4650): for each slice,
in order, the first step whose output is not yet registered (or any first
step when `restart` is set) becomes the head of a chain to process. -/
def selectFirstSteps (slices : List (List EngineStep)) (restart : Bool) :
    List EngineStep :=
  slices.filterMap (fun steps => steps.find? (fun st => !st.hasRegisteredOutput || restart))

/-- One engine pass over a request: each selected step's candidate is
registered exactly when its input check passes; the result is the list of
step ids that registered a task. -/
def runEngineSteps (slices : List (List EngineStep)) (restart : Bool) : List Nat :=
  (selectFirstSteps slices restart).filterMap (fun st =>
    match check_task_input st.env with
    | .ok _ => some st.id
    | .error _ => none)

/-- A candidate whose primary input is already fully covered by prior
registrations: the pre-stages succeed and the requested file count plus
the consumed count exceeds the total. -/
def inputFullyCovered (env : CheckEnv) : Prop :=
  env.reuseInput = false ∧
  ∃ pin requested used total, env.task.primaryInput = some pin ∧
    check_pre_stages env pin = .ok (requested, used, total) ∧
    total < requested + used

/-- C2: Engine re-invocation is idempotent — on a request state in which
every approved step either already has registered output or produces a
candidate whose requested-plus-used file count exceeds the total, a
(second) engine pass registers no tasks: steps with registered output
are not selected, and every selected step's candidate is rejected with
the no-more-input-files error. -/
theorem c2_engine_idempotent (slices : List (List EngineStep))
    (h : ∀ sl ∈ slices, ∀ st ∈ sl,
      st.hasRegisteredOutput = true ∨ inputFullyCovered st.env) :
    runEngineSteps slices false = [] ∧
    ∀ st ∈ selectFirstSteps slices false,
      check_task_input st.env = .error .noMoreInputFiles := by
  have hsel : ∀ st ∈ selectFirstSteps slices false,
      check_task_input st.env = .error .noMoreInputFiles := by
    intro st hst
    obtain ⟨sl, hsl, hfind⟩ := List.mem_filterMap.mp hst
    have hmem : st ∈ sl := List.mem_of_find?_eq_some hfind
    have hpred := List.find?_some hfind
    have hout : st.hasRegisteredOutput = false := by
      cases hob : st.hasRegisteredOutput
      · rfl
      · rw [hob] at hpred
        simp at hpred
    rcases h sl hsl st hmem with h1 | h1
    · rw [hout] at h1
      cases h1
    · obtain ⟨hreuse, pin, requested, used, total, hpin, hpre, hover⟩ := h1
      simp only [check_task_input, hpin, hpre, hreuse]
      rw [if_neg (by simp), if_pos (Or.inl hover)]
  refine ⟨?_, hsel⟩
  rw [runEngineSteps, List.filterMap_eq_nil]
  intro st hst
  rw [hsel st hst]

/-- The C1 scenario with only 2 total input files: the existing task has
consumed the whole input, so any further candidate exceeds the total. -/
def sampleCoveredEnv : CheckEnv :=
  { sampleDupEnv with rucioTotalFiles := some 2 }

/-- Witness for C2 at a concrete request state: one slice whose step has
registered output, one slice whose step's input is fully covered; the
pass registers nothing and the selected candidate is rejected with the
no-more-input-files error. -/
theorem c2_engine_idempotent_witness :
    runEngineSteps [[{ id := 1, hasRegisteredOutput := true, env := sampleDupEnv }],
      [{ id := 2, hasRegisteredOutput := false, env := sampleCoveredEnv }]] false = [] ∧
    ∀ st ∈ selectFirstSteps
        [[{ id := 1, hasRegisteredOutput := true, env := sampleDupEnv }],
         [{ id := 2, hasRegisteredOutput := false, env := sampleCoveredEnv }]] false,
      check_task_input st.env = .error .noMoreInputFiles := by
  refine c2_engine_idempotent _ ?_
  intro sl hsl st hst
  rcases List.mem_cons.mp hsl with h1 | h1
  · subst h1
    rcases List.mem_singleton.mp hst with h2
    subst h2
    exact Or.inl rfl
  · rcases List.mem_singleton.mp h1 with h2
    subst h2
    rcases List.mem_singleton.mp hst with h3
    subst h3
    refine Or.inr ⟨rfl, { dataset := sampleDupInput, offset := 0 }, 1, 2, 2, rfl, rfl, ?_⟩
    decide

/-- A member dataset of an input container, with the events-per-file
value `get_events_per_input_file` resolves for it and its Rucio file
count. -/
structure DatasetInfo where
  name : Pstr
  eventsPerFile : Int
  nFiles : Int
deriving Repr, DecidableEq

/-- `events_per_file * rucio_client.get_number_files(dataset)`. -/
def datasetEvents (d : DatasetInfo) : Int := d.eventsPerFile * d.nFiles

/-- `get_events_in_datasets` (taskdef.py lines 4021-4027): the sum of the
per-dataset event totals. -/
def containerEvents (ds : List DatasetInfo) : Int := (ds.map datasetEvents).sum

/-- One splitting entry produced by `_get_splitting_dict`
(`{'dataset', 'offset', 'number_events', 'container'}`). -/
structure SplitEntry where
  dataset : Pstr
  offsetFiles : Int
  numberEvents : Int
  container : Pstr
deriving Repr, DecidableEq

/-- The member-dataset loop of `_get_splitting_dict` (taskdef.py lines
4401-4433) with its `try/finally` bookkeeping: datasets fully covered by
the processed carry-over are skipped, the first partially covered dataset
yields a file offset, consumption continues until the requested count is
satisfied (`break`) or the input is exhausted, and a dataset with no
events-per-file information abandons the loop, returning the entries
accumulated so far.  Arguments follow the loop state:
`processed` = `number_events_processed`, `requested` =
`number_events_requested`, `startOffset` = `start_offset`. -/
def splitLoop (container : Pstr) (processed requested startOffset : Int) :
    List DatasetInfo → List SplitEntry
  | [] => []
  | d :: rest =>
    if d.eventsPerFile = 0 then []
    else
      let nds := datasetEvents d
      if startOffset + nds < processed then
        splitLoop container processed requested (startOffset + nds) rest
      else
        let offset := processed - startOffset
        if nds - offset < requested then
          let ne := nds - offset
          (if ne ≠ 0 then
             [{ dataset := d.name, offsetFiles := offset.fdiv d.eventsPerFile,
                numberEvents := ne, container := container }]
           else []) ++
            splitLoop container (processed + ne) (requested - ne) (startOffset + nds) rest
        else
          if requested ≠ 0 then
            [{ dataset := d.name, offsetFiles := offset.fdiv d.eventsPerFile,
               numberEvents := requested, container := container }]
          else []

/-- The GROUP-request branch of `_get_splitting_dict` (lines 4381-4400):
each not-yet-processed member dataset becomes one full entry at offset 0;
a dataset with no events-per-file information abandons the loop. -/
def splitGroupEntries (container : Pstr) (processedDatasets : List Pstr) :
    List DatasetInfo → List SplitEntry
  | [] => []
  | d :: rest =>
    if afterLastColon d.name ∈ processedDatasets then
      splitGroupEntries container processedDatasets rest
    else if d.eventsPerFile = 0 then []
    else
      let ne := datasetEvents d
      (if ne ≠ 0 then
         [{ dataset := d.name, offsetFiles := 0, numberEvents := ne,
            container := container }]
       else []) ++ splitGroupEntries container processedDatasets rest

/-- The container-splitting fragment of `_get_splitting_dict` (taskdef.py
lines 4346-4433): the container total, the requested count (the step's
`input_events`, or the unprocessed remainder when it is not positive), the
empty-container and not-enough-events guards, and the ≤10% shortfall
auto-reduction of lines 4373-4380.  The source compares
`float(req - avail) / float(req) * 100 <= 10`; the embedding uses the
exact equivalent `(req - avail) * 10 ≤ req` (float rounding can differ
from it only within one ulp of the 10% boundary). -/
def get_splitting_entries (inputDataName : Pstr) (inputEvents : Int)
    (isGroupRequest : Bool) (numberEventsProcessed : Int)
    (processedDatasets : List Pstr) (datasets : List DatasetInfo) :
    Except TDError (List SplitEntry) :=
  let total := containerEvents datasets
  if total = 0 then .error .emptyContainer
  else
    let requested := if 0 < inputEvents then inputEvents else total - numberEventsProcessed
    if requested ≤ 0 then .error .notEnoughEvents
    else
      match (if total < requested + numberEventsProcessed then
               (if (requested - (total - numberEventsProcessed)) * 10 ≤ requested then
                  Except.ok (total - numberEventsProcessed)
                else Except.error TDError.notEnoughEvents)
             else Except.ok requested) with
      | .error e => .error e
      | .ok requested2 =>
        if inputEvents ≤ 0 ∧ isGroupRequest then
          .ok (splitGroupEntries inputDataName processedDatasets datasets)
        else
          .ok (splitLoop inputDataName numberEventsProcessed requested2 0 datasets)

/-- The assigned event count of a splitting-entry list. -/
def entrySum (es : List SplitEntry) : Int := (es.map SplitEntry.numberEvents).sum

/-- The member-dataset loop assigns exactly the requested event count
when every member has a positive events-per-file value and the requested
count fits into the remaining input. -/
theorem splitLoop_sum_eq (c : Pstr) (ds : List DatasetInfo) :
    ∀ processed requested startOffset,
      (∀ d ∈ ds, 0 < d.eventsPerFile ∧ 0 ≤ d.nFiles) →
      startOffset ≤ processed → 0 ≤ requested →
      requested ≤ startOffset + containerEvents ds - processed →
      entrySum (splitLoop c processed requested startOffset ds) = requested := by
  induction ds with
  | nil =>
    intro P req so _ hso hreq hle
    simp only [containerEvents, List.map_nil, List.sum_nil] at hle
    have : req = 0 := le_antisymm (by omega) hreq
    simp [splitLoop, entrySum, this]
  | cons d rest ih =>
    intro P req so hpos hso hreq hle
    obtain ⟨hepf, hnf⟩ := hpos d (by simp)
    have hposr : ∀ x ∈ rest, 0 < x.eventsPerFile ∧ 0 ≤ x.nFiles :=
      fun x hx => hpos x (by simp [hx])
    have hT : containerEvents (d :: rest) = datasetEvents d + containerEvents rest := by
      simp [containerEvents]
    have hnds : 0 ≤ datasetEvents d := mul_nonneg (le_of_lt hepf) hnf
    simp only [splitLoop]
    rw [if_neg (by omega)]
    by_cases hskip : so + datasetEvents d < P
    · rw [if_pos hskip]
      exact ih P req (so + datasetEvents d) hposr (by omega) hreq (by omega)
    · rw [if_neg hskip]
      by_cases hpart : datasetEvents d - (P - so) < req
      · rw [if_pos hpart]
        have hrec := ih (P + (datasetEvents d - (P - so)))
          (req - (datasetEvents d - (P - so))) (so + datasetEvents d) hposr
          (by omega) (by omega) (by omega)
        by_cases hz : datasetEvents d - (P - so) ≠ 0
        · rw [if_pos hz]
          simp only [entrySum, List.map_append, List.sum_append] at hrec ⊢
          simp only [List.map_cons, List.map_nil, List.sum_cons, List.sum_nil]
          omega
        · rw [if_neg hz]
          simp only [not_not] at hz
          simp only [entrySum, List.nil_append] at hrec ⊢
          omega
      · rw [if_neg hpart]
        by_cases hz : req ≠ 0
        · rw [if_pos hz]
          simp [entrySum]
        · rw [if_neg hz]
          simp only [not_not] at hz
          simp [entrySum, hz]

/-- C3: Splitting conservation — for a container whose members have
positive events-per-file values and per-dataset totals `eᵢ`
(events-per-file times file count), with an already-processed carry-over
`P` and a positive requested count: the assigned sum plus `P` never
exceeds `Σeᵢ`; when the remainder covers the request the assigned sum
equals the requested count; a shortfall within 10% of the request
auto-reduces it to the remainder; and a larger shortfall raises the
not-enough-events error and produces no entries. -/
theorem c3_splitting_conservation (inputDataName : Pstr) (inputEvents P : Int)
    (isGroup : Bool) (processedDatasets : List Pstr) (datasets : List DatasetInfo)
    (hpos : ∀ d ∈ datasets, 0 < d.eventsPerFile ∧ 0 ≤ d.nFiles)
    (hP : 0 ≤ P) (hin : 0 < inputEvents) :
    (∀ es, get_splitting_entries inputDataName inputEvents isGroup P
        processedDatasets datasets = .ok es →
      entrySum es + P ≤ containerEvents datasets) ∧
    (inputEvents + P ≤ containerEvents datasets →
      get_splitting_entries inputDataName inputEvents isGroup P
          processedDatasets datasets =
        .ok (splitLoop inputDataName P inputEvents 0 datasets) ∧
      entrySum (splitLoop inputDataName P inputEvents 0 datasets) = inputEvents) ∧
    (containerEvents datasets < inputEvents + P →
      (inputEvents - (containerEvents datasets - P)) * 10 ≤ inputEvents →
      get_splitting_entries inputDataName inputEvents isGroup P
          processedDatasets datasets =
        .ok (splitLoop inputDataName P (containerEvents datasets - P) 0 datasets) ∧
      entrySum (splitLoop inputDataName P (containerEvents datasets - P) 0 datasets) =
        containerEvents datasets - P) ∧
    (containerEvents datasets < inputEvents + P →
      inputEvents < (inputEvents - (containerEvents datasets - P)) * 10 →
      0 < containerEvents datasets →
      get_splitting_entries inputDataName inputEvents isGroup P
          processedDatasets datasets = .error .notEnoughEvents) := by
  have hgroup : ¬(inputEvents ≤ 0 ∧ isGroup = true) := by
    intro hg
    omega
  have hb : inputEvents + P ≤ containerEvents datasets →
      get_splitting_entries inputDataName inputEvents isGroup P
          processedDatasets datasets =
        .ok (splitLoop inputDataName P inputEvents 0 datasets) ∧
      entrySum (splitLoop inputDataName P inputEvents 0 datasets) = inputEvents := by
    intro hble
    constructor
    · simp only [get_splitting_entries]
      rw [if_neg (by omega), if_pos hin, if_neg (by omega), if_neg (by omega)]
      simp [hgroup]
    · exact splitLoop_sum_eq inputDataName datasets P inputEvents 0 hpos hP
        (le_of_lt hin) (by omega)
  have hc : containerEvents datasets < inputEvents + P →
      (inputEvents - (containerEvents datasets - P)) * 10 ≤ inputEvents →
      get_splitting_entries inputDataName inputEvents isGroup P
          processedDatasets datasets =
        .ok (splitLoop inputDataName P (containerEvents datasets - P) 0 datasets) ∧
      entrySum (splitLoop inputDataName P (containerEvents datasets - P) 0 datasets) =
        containerEvents datasets - P := by
    intro hlt htol
    have hTP : 0 < containerEvents datasets - P := by omega
    constructor
    · simp only [get_splitting_entries]
      rw [if_neg (by omega), if_pos hin, if_neg (by omega), if_pos hlt, if_pos htol]
      simp [hgroup]
    · exact splitLoop_sum_eq inputDataName datasets P (containerEvents datasets - P) 0
        hpos hP (by omega) (by omega)
  have hd : containerEvents datasets < inputEvents + P →
      inputEvents < (inputEvents - (containerEvents datasets - P)) * 10 →
      0 < containerEvents datasets →
      get_splitting_entries inputDataName inputEvents isGroup P
          processedDatasets datasets = .error .notEnoughEvents := by
    intro hlt hntol hTpos
    simp only [get_splitting_entries]
    rw [if_neg (by omega), if_pos hin, if_neg (by omega), if_pos hlt,
      if_neg (by omega)]
  refine ⟨?_, hb, hc, hd⟩
  intro es hok
  by_cases hlt : containerEvents datasets < inputEvents + P
  · by_cases htol : (inputEvents - (containerEvents datasets - P)) * 10 ≤ inputEvents
    · obtain ⟨heq, hsum⟩ := hc hlt htol
      rw [heq] at hok
      cases hok
      omega
    · by_cases hTpos : 0 < containerEvents datasets
      · rw [hd hlt (by omega) hTpos] at hok
        cases hok
      · have hT0 : containerEvents datasets = 0 := by
          have hge : 0 ≤ containerEvents datasets := by
            have : ∀ d ∈ datasets, 0 ≤ datasetEvents d := by
              intro d hd2
              obtain ⟨h1, h2⟩ := hpos d hd2
              exact mul_nonneg (le_of_lt h1) h2
            simp only [containerEvents]
            exact List.sum_nonneg (by
              intro x hx
              obtain ⟨d, hd2, rfl⟩ := List.mem_map.mp hx
              exact this d hd2)
          omega
        simp only [get_splitting_entries] at hok
        rw [if_pos hT0] at hok
        cases hok
  · obtain ⟨heq, hsum⟩ := hb (by omega)
    rw [heq] at hok
    cases hok
    omega

/-- Two member datasets of 50 events each (10 events per file, 5 files)
used by the C3 witness. -/
def sampleSplitDatasets : List DatasetInfo :=
  [{ name := "d1".toList, eventsPerFile := 10, nFiles := 5 },
   { name := "d2".toList, eventsPerFile := 10, nFiles := 5 }]

/-- Witness for C3 at concrete inputs: with carry-over 30 over a
100-event container, a 60-event request is assigned exactly, and a
100-event request (30% shortfall) raises the not-enough-events error. -/
theorem c3_splitting_conservation_witness :
    get_splitting_entries "cont".toList 60 false 30 [] sampleSplitDatasets =
      .ok (splitLoop "cont".toList 30 60 0 sampleSplitDatasets) ∧
    entrySum (splitLoop "cont".toList 30 60 0 sampleSplitDatasets) = 60 ∧
    get_splitting_entries "cont".toList 100 false 30 [] sampleSplitDatasets =
      .error .notEnoughEvents := by
  obtain ⟨_, hb, _, _⟩ := c3_splitting_conservation "cont".toList 60 30 false []
    sampleSplitDatasets (by decide) (by decide) (by decide)
  obtain ⟨_, _, _, hd⟩ := c3_splitting_conservation "cont".toList 100 30 false []
    sampleSplitDatasets (by decide) (by decide) (by decide)
  exact ⟨(hb (by decide)).1, (hb (by decide)).2, hd (by decide) (by decide) (by decide)⟩

/-- `s.replace(pat, rep)` for a non-empty pattern, scanning left to
right; the fuel argument, always called with the scanned string's length,
bounds the recursion (every step consumes at least one character). -/
def replaceSubAux (p : Char) (pt rep : Pstr) : Nat → Pstr → Pstr
  | 0, s => s
  | _ + 1, [] => []
  | fuel + 1, c :: rest =>
    if (p :: pt).isPrefixOf (c :: rest) then
      rep ++ replaceSubAux p pt rep fuel (rest.drop pt.length)
    else c :: replaceSubAux p pt rep fuel rest

/-- Python `str.replace`.  The engine only replaces the 8-digit
formatted proto task id, which is never empty. -/
def replaceSub (pat rep s : Pstr) : Pstr :=
  match pat with
  | [] => s
  | p :: pt => replaceSubAux p pt rep s.length s

/-- One templated task of `create_task_chain`: the freshly allocated task
id and the rendered output dataset names, still carrying the placeholder
proto id. -/
structure TaskElement where
  taskId : Nat
  outputNames : List Pstr
deriving Repr, DecidableEq

/-- The finalized output-dataset name: the real task id substituted for
the placeholder proto id (`DEFAULT_TASK_ID_FORMAT % id`, taskdef.py lines
3825-3827 and taskreg.py lines 24-26). -/
def finalizeOutputName (protoId taskId : Nat) (name : Pstr) : Pstr :=
  replaceSub (formatTaskId protoId) (formatTaskId taskId) name

/-- The output-name length loop of `create_task_chain` (lines 3823-3829):
any finalized name longer than `DEFAULT_OUTPUT_NAME_MAX_LENGTH = 255`
raises `OutputNameMaxLengthException`. -/
def checkOutputNames (protoId taskId : Nat) : List Pstr → Except TDError Unit
  | [] => .ok ()
  | name :: rest =>
    if 255 < (finalizeOutputName protoId taskId name).length then
      .error (.outputNameTooLong (finalizeOutputName protoId taskId name))
    else checkOutputNames protoId taskId rest

/-- The persisted records the registrar writes: `TTask`/`ProductionTask`
rows by task id and `ProductionDataset` rows by (task id, name). -/
structure RegState where
  tasks : List Nat
  datasets : List (Nat × Pstr)
deriving Repr, DecidableEq

/-- `TaskRegistration.register_task_output` (taskreg.py lines 21-39):
substitute the real id into each output name and persist a dataset row
for it unless one with that name already exists. -/
def registerTaskOutput (protoId taskId : Nat) (names : List Pstr) (st : RegState) :
    RegState :=
  match names with
  | [] => st
  | name :: rest =>
    let sub := finalizeOutputName protoId taskId name
    if sub ∈ st.datasets.map Prod.snd then registerTaskOutput protoId taskId rest st
    else registerTaskOutput protoId taskId rest
      { st with datasets := st.datasets ++ [(taskId, sub)] }

/-- The per-task-element body of `create_task_chain` (lines 3819-3869):
the output-name length check runs first, then the remaining input checks
(`_check_task_number_of_jobs`, `_check_task_unmerged_input`,
`_check_task_merged_input`, `_check_task_input` — abstracted here as an
arbitrary `inputCheck`), and only if everything passed are the task and
its output datasets persisted. -/
def processTaskElement (protoId : Nat) (inputCheck : Nat → Except TDError Unit)
    (st : RegState) (te : TaskElement) : Except TDError RegState :=
  match checkOutputNames protoId te.taskId te.outputNames with
  | .error e => .error e
  | .ok _ =>
    match inputCheck te.taskId with
    | .error e => .error e
    | .ok _ =>
      .ok (registerTaskOutput protoId te.taskId te.outputNames
        { st with tasks := st.tasks ++ [te.taskId] })

/-- The loop over the templated task elements: an exception raised for
one element propagates, leaving the state as of the last completed
element. -/
def runTaskElements (protoId : Nat) (inputCheck : Nat → Except TDError Unit) :
    RegState → List TaskElement → RegState × Option TDError
  | st, [] => (st, none)
  | st, te :: rest =>
    match processTaskElement protoId inputCheck st te with
    | .error e => (st, some e)
    | .ok st2 => runTaskElements protoId inputCheck st2 rest

/-- If some output name finalizes beyond the length bound, the length
loop raises the length exception. -/
theorem checkOutputNames_error_of_long (protoId taskId : Nat) (names : List Pstr)
    (h : ∃ name ∈ names, 255 < (finalizeOutputName protoId taskId name).length) :
    ∃ bad, checkOutputNames protoId taskId names = .error (.outputNameTooLong bad) ∧
      255 < bad.length := by
  induction names with
  | nil => simp at h
  | cons name rest ih =>
    by_cases hn : 255 < (finalizeOutputName protoId taskId name).length
    · exact ⟨finalizeOutputName protoId taskId name,
        by simp [checkOutputNames, hn], hn⟩
    · obtain ⟨x, hx, hlen⟩ := h
      rcases List.mem_cons.mp hx with h1 | h1
      · exact absurd (h1 ▸ hlen) hn
      · obtain ⟨bad, hb1, hb2⟩ := ih ⟨x, h1, hlen⟩
        refine ⟨bad, ?_, hb2⟩
        simp only [checkOutputNames]
        rw [if_neg hn]
        exact hb1

/-- `register_task_output` leaves the task table unchanged. -/
theorem registerTaskOutput_tasks (protoId taskId : Nat) (names : List Pstr)
    (st : RegState) :
    (registerTaskOutput protoId taskId names st).tasks = st.tasks := by
  induction names generalizing st with
  | nil => rfl
  | cons name rest ih =>
    simp only [registerTaskOutput]
    by_cases hm : finalizeOutputName protoId taskId name ∈ st.datasets.map Prod.snd
    · rw [if_pos hm, ih]
    · rw [if_neg hm, ih]

/-- `register_task_output` writes dataset rows only for its own task
id. -/
theorem registerTaskOutput_datasets (protoId taskId : Nat) (names : List Pstr)
    (st : RegState) (tid : Nat) (h : ∀ d ∈ st.datasets, d.1 ≠ tid)
    (hne : taskId ≠ tid) :
    ∀ d ∈ (registerTaskOutput protoId taskId names st).datasets, d.1 ≠ tid := by
  induction names generalizing st with
  | nil => exact h
  | cons name rest ih =>
    simp only [registerTaskOutput]
    by_cases hm : finalizeOutputName protoId taskId name ∈ st.datasets.map Prod.snd
    · rw [if_pos hm]
      exact ih st h
    · rw [if_neg hm]
      refine ih _ ?_
      intro d hd
      rcases List.mem_append.mp hd with h1 | h1
      · exact h d h1
      · simp only [List.mem_singleton] at h1
        subst h1
        exact hne

/-- C6: Output-name length bound with atomicity — whenever a task element
has a finalized output-dataset name longer than 255 characters, the task
loop reports an error and the final persisted state contains no Task
record and no Dataset record for that task. -/
theorem c6_output_name_length (protoId : Nat) (inputCheck : Nat → Except TDError Unit)
    (st0 : RegState) (tes : List TaskElement) (te : TaskElement)
    (hmem : te ∈ tes)
    (hlong : ∃ name ∈ te.outputNames,
      255 < (finalizeOutputName protoId te.taskId name).length)
    (hnodup : (tes.map TaskElement.taskId).Nodup)
    (htask0 : te.taskId ∉ st0.tasks)
    (hds0 : ∀ d ∈ st0.datasets, d.1 ≠ te.taskId) :
    (runTaskElements protoId inputCheck st0 tes).2.isSome = true ∧
    te.taskId ∉ (runTaskElements protoId inputCheck st0 tes).1.tasks ∧
    ∀ d ∈ (runTaskElements protoId inputCheck st0 tes).1.datasets,
      d.1 ≠ te.taskId := by
  induction tes generalizing st0 with
  | nil => simp at hmem
  | cons u rest ih =>
    by_cases heq : u = te
    · subst heq
      obtain ⟨bad, hb1, _⟩ := checkOutputNames_error_of_long protoId u.taskId
        u.outputNames hlong
      simp only [runTaskElements, processTaskElement, hb1]
      exact ⟨rfl, htask0, hds0⟩
    · have hte : te ∈ rest := by
        rcases List.mem_cons.mp hmem with h1 | h1
        · exact absurd h1.symm heq
        · exact h1
      have hidne : u.taskId ≠ te.taskId := by
        simp only [List.map_cons, List.nodup_cons] at hnodup
        intro hc
        exact hnodup.1 (hc ▸ List.mem_map.mpr ⟨te, hte, rfl⟩)
      simp only [runTaskElements]
      cases hp : processTaskElement protoId inputCheck st0 u with
      | error e => exact ⟨rfl, htask0, hds0⟩
      | ok st2 =>
        have hst2 : st2 = registerTaskOutput protoId u.taskId u.outputNames
            { st0 with tasks := st0.tasks ++ [u.taskId] } := by
          simp only [processTaskElement] at hp
          cases hc1 : checkOutputNames protoId u.taskId u.outputNames with
          | error e => rw [hc1] at hp; cases hp
          | ok _ =>
            rw [hc1] at hp
            cases hc2 : inputCheck u.taskId with
            | error e => rw [hc2] at hp; cases hp
            | ok _ =>
              rw [hc2] at hp
              cases hp
              rfl
        have htask2 : te.taskId ∉ st2.tasks := by
          rw [hst2, registerTaskOutput_tasks]
          intro hc
          rcases List.mem_append.mp hc with h1 | h1
          · exact htask0 h1
          · simp only [List.mem_singleton] at h1
            exact hidne h1.symm
        have hds2 : ∀ d ∈ st2.datasets, d.1 ≠ te.taskId := by
          rw [hst2]
          exact registerTaskOutput_datasets protoId u.taskId u.outputNames
            { st0 with tasks := st0.tasks ++ [u.taskId] } te.taskId hds0 hidne
        have hnodup2 : (rest.map TaskElement.taskId).Nodup := by
          simp only [List.map_cons, List.nodup_cons] at hnodup
          exact hnodup.2
        exact ih st2 hte hnodup2 htask2 hds2

/-- Witness for C6 at a concrete input: a single task element whose only
output name has 256 characters is rejected and nothing is persisted for
it. -/
theorem c6_output_name_length_witness :
    (runTaskElements 0 (fun _ => .ok ()) { tasks := [], datasets := [] }
      [{ taskId := 5, outputNames := [List.replicate 256 'a'] }]).2.isSome = true ∧
    (5 : Nat) ∉ (runTaskElements 0 (fun _ => .ok ()) { tasks := [], datasets := [] }
      [{ taskId := 5, outputNames := [List.replicate 256 'a'] }]).1.tasks ∧
    ∀ d ∈ (runTaskElements 0 (fun _ => .ok ()) { tasks := [], datasets := [] }
      [{ taskId := 5, outputNames := [List.replicate 256 'a'] }]).1.datasets,
      d.1 ≠ 5 := by
  exact c6_output_name_length 0 (fun _ => .ok ()) { tasks := [], datasets := [] }
    [{ taskId := 5, outputNames := [List.replicate 256 'a'] }]
    { taskId := 5, outputNames := [List.replicate 256 'a'] }
    (by simp) ⟨List.replicate 256 'a', by simp, by decide⟩
    (by simp) (by simp) (by simp)

/-- A `ProductionTask` row as read by `TaskRegistration.get_step_output`
and `get_parent_task_id`: id, owning step and status. -/
structure DBTask where
  id : Nat
  stepId : Nat
  status : Pstr
deriving Repr, DecidableEq

/-- A `ProductionDataset` row: dataset name and producing task id. -/
structure DBDataset where
  name : Pstr
  taskId : Nat
deriving Repr, DecidableEq

/-- `TaskRegistration.get_step_output` (taskreg.py lines 163-178): an
unknown step resolves to nothing; with a `task_id` the single task of
that id is used, otherwise the step's tasks in descending id order
(`order_by('-id')` — the table rows are passed in descending id order);
failed/broken/aborted/obsolete/toabort tasks are excluded when requested;
the result is the dataset names registered for the first remaining
task. -/
def get_step_output (stepFound : Bool) (allTasks : List DBTask)
    (allDatasets : List DBDataset) (stepId : Nat) (excludeFailed : Bool)
    (taskId : Option Nat) : List Pstr :=
  if stepFound = false then []
  else
    let ts : List DBTask := match taskId with
      | some tid => allTasks.filter (fun t => decide (t.id = tid))
      | none => allTasks.filter (fun t => decide (t.stepId = stepId))
    let ts2 : List DBTask := if excludeFailed then
        ts.filter (fun t => decide (t.status ∉ badStatuses))
      else ts
    match ts2.head? with
    | none => []
    | some t0 => (allDatasets.filter (fun d => decide (d.taskId = t0.id))).map
        DBDataset.name

/-- `TaskRegistration.get_parent_task_id` (taskreg.py lines 200-208): for
a non-root step, the highest-id non-terminal task of the parent step,
falling back to the given task id. -/
def get_parent_task_id (isRoot : Bool) (allTasks : List DBTask)
    (parentStepId : Nat) (taskId : Nat) : Nat :=
  if isRoot then taskId
  else
    match ((allTasks.filter (fun t => decide (t.stepId = parentStepId))).filter
        (fun t => decide (t.status ∉ badStatuses))).head? with
    | none => taskId
    | some t0 => t0.id

/-- The step's declared input-format list (taskdef.py lines 583-586). -/
def inputFormats (taskConfigInputFormat : Option Pstr) : List Pstr :=
  match taskConfigInputFormat with
  | none => []
  | some f => pySplit '.' f

/-- The filtering loop over the parent's registered outputs (taskdef.py
lines 587-597): parse each name, skip `log`-type outputs
(case-insensitively), and keep only the declared input formats when any
are declared.  Result pairs are (`input<type>File` parameter key, name);
`_add_input_dataset_name` groups them by key. -/
def resolveInputLoop (formats : List Pstr) : List Pstr →
    Except TDError (List (Pstr × Pstr))
  | [] => .ok []
  | n :: rest =>
    match parse_data_name n with
    | .error e => .error e
    | .ok d =>
      if pyLower d.data_type = "log".toList then resolveInputLoop formats rest
      else if formats ≠ [] then
        if d.data_type ∈ formats then
          match resolveInputLoop formats rest with
          | .error e => .error e
          | .ok res =>
            .ok (("input".toList ++ d.data_type ++ "File".toList, n) :: res)
        else resolveInputLoop formats rest
      else
        match resolveInputLoop formats rest with
        | .error e => .error e
        | .ok res => .ok (("input".toList ++ d.data_type ++ "File".toList, n) :: res)

/-- The non-root branch of `get_input_params` (taskdef.py lines 580-599):
resolve the parent step's registered output and filter it. -/
def get_input_params_nonroot (taskConfigInputFormat : Option Pstr)
    (allTasks : List DBTask) (allDatasets : List DBDataset) (parentStepId : Nat) :
    Except TDError (List (Pstr × Pstr)) :=
  resolveInputLoop (inputFormats taskConfigInputFormat)
    (get_step_output true allTasks allDatasets parentStepId true none)

/-- Whether an output name survives the non-root input filter. -/
def keepInput (formats : List Pstr) (n : Pstr) : Bool :=
  match parse_data_name n with
  | .error _ => false
  | .ok d =>
    decide (¬(pyLower d.data_type = "log".toList)) &&
      (decide (formats = []) || decide (d.data_type ∈ formats))

/-- C8: Non-root input resolution — for a step that is not a chain root,
the resolved input datasets are exactly the output dataset names
registered for the most recent (highest-id) task of the parent step not
in a terminal-failure state, excluding `log`-type outputs, and restricted
to the declared input-format list whenever it is non-empty.  Task-table
rows are given in descending id order, as `order_by('-id')` returns
them. -/
theorem c8_nonroot_input_resolution (allTasks : List DBTask)
    (allDatasets : List DBDataset) (parentStepId : Nat)
    (taskConfigInputFormat : Option Pstr)
    (hsorted : allTasks.Pairwise (fun a b => b.id < a.id)) :
    (∀ t0 rest,
      ((allTasks.filter (fun t => decide (t.stepId = parentStepId))).filter
        (fun t => decide (t.status ∉ badStatuses))) = t0 :: rest →
      (get_step_output true allTasks allDatasets parentStepId true none =
        (allDatasets.filter (fun d => decide (d.taskId = t0.id))).map DBDataset.name ∧
       t0.stepId = parentStepId ∧ t0.status ∉ badStatuses ∧
       ∀ u ∈ allTasks, u.stepId = parentStepId → u.status ∉ badStatuses →
         u.id ≤ t0.id)) ∧
    (((allTasks.filter (fun t => decide (t.stepId = parentStepId))).filter
        (fun t => decide (t.status ∉ badStatuses))) = [] →
      get_step_output true allTasks allDatasets parentStepId true none = []) ∧
    (∀ (formats : List Pstr) (outs : List Pstr),
      (∀ n ∈ outs, (parse_data_name n).isOk = true) →
      ∃ res, resolveInputLoop formats outs = .ok res ∧
        res.map Prod.snd = outs.filter (keepInput formats)) ∧
    ((∀ n ∈ get_step_output true allTasks allDatasets parentStepId true none,
        (parse_data_name n).isOk = true) →
      ∃ res, get_input_params_nonroot taskConfigInputFormat allTasks allDatasets
          parentStepId = .ok res ∧
        res.map Prod.snd =
          (get_step_output true allTasks allDatasets parentStepId true none).filter
            (keepInput (inputFormats taskConfigInputFormat))) := by
  have hloop : ∀ (formats : List Pstr) (outs : List Pstr),
      (∀ n ∈ outs, (parse_data_name n).isOk = true) →
      ∃ res, resolveInputLoop formats outs = .ok res ∧
        res.map Prod.snd = outs.filter (keepInput formats) := by
    intro formats outs
    induction outs with
    | nil => exact fun _ => ⟨[], rfl, rfl⟩
    | cons n rest ih =>
      intro hall
      obtain ⟨res, hres, hmap⟩ := ih (fun x hx => hall x (by simp [hx]))
      cases hp : parse_data_name n with
      | error e =>
        have := hall n (by simp)
        rw [hp] at this
        cases this
      | ok d =>
        by_cases hlog : pyLower d.data_type = "log".toList
        · refine ⟨res, ?_, ?_⟩
          · simp only [resolveInputLoop, hp]
            rw [if_pos hlog]
            exact hres
          · rw [hmap, List.filter_cons]
            have : keepInput formats n = false := by
              simp [keepInput, hp, hlog]
            rw [this]
            simp
        · by_cases hfmt : formats = []
          · subst hfmt
            have hlog2 : ¬pyLower d.data_type = ['l', 'o', 'g'] := by simpa using hlog
            refine ⟨("input".toList ++ d.data_type ++ "File".toList, n) :: res, ?_, ?_⟩
            · simp only [resolveInputLoop, hp]
              rw [if_neg hlog]
              simp [hres]
            · rw [List.filter_cons]
              have : keepInput [] n = true := by
                simp [keepInput, hp, hlog2]
              rw [this]
              simp [hmap]
          · by_cases hin : d.data_type ∈ formats
            · have hlog2 : ¬pyLower d.data_type = ['l', 'o', 'g'] := by simpa using hlog
              refine ⟨("input".toList ++ d.data_type ++ "File".toList, n) :: res, ?_, ?_⟩
              · simp only [resolveInputLoop, hp]
                rw [if_neg hlog, if_pos hfmt, if_pos hin, hres]
              · rw [List.filter_cons]
                have : keepInput formats n = true := by
                  simp [keepInput, hp, hlog2, hin]
                rw [this]
                simp [hmap]
            · refine ⟨res, ?_, ?_⟩
              · simp only [resolveInputLoop, hp]
                rw [if_neg hlog, if_pos hfmt, if_neg hin]
                exact hres
              · rw [List.filter_cons]
                have : keepInput formats n = false := by
                  simp [keepInput, hp, hlog, hfmt, hin]
                rw [this]
                simp [hmap]
  refine ⟨?_, ?_, hloop, ?_⟩
  · intro t0 rest hq
    have hq2 : get_step_output true allTasks allDatasets parentStepId true none =
        (allDatasets.filter (fun d => decide (d.taskId = t0.id))).map DBDataset.name := by
      simp only [get_step_output, hq]
      rfl
    have hsub : ((allTasks.filter (fun t => decide (t.stepId = parentStepId))).filter
        (fun t => decide (t.status ∉ badStatuses))).Sublist allTasks :=
      (List.filter_sublist _).trans (List.filter_sublist _)
    have hqsorted := hsorted.sublist hsub
    rw [hq] at hqsorted
    have ht0 : t0 ∈ (allTasks.filter (fun t => decide (t.stepId = parentStepId))).filter
        (fun t => decide (t.status ∉ badStatuses)) := by
      rw [hq]
      simp
    have ht0a := List.mem_filter.mp ht0
    have ht0b := List.mem_filter.mp ht0a.1
    refine ⟨hq2, by simpa using ht0b.2, by simpa using ht0a.2, ?_⟩
    intro u hu hustep hugood
    have humem : u ∈ (allTasks.filter (fun t => decide (t.stepId = parentStepId))).filter
        (fun t => decide (t.status ∉ badStatuses)) := by
      refine List.mem_filter.mpr ⟨List.mem_filter.mpr ⟨hu, by simpa⟩, by simpa⟩
    rw [hq] at humem
    rcases List.mem_cons.mp humem with h1 | h1
    · exact le_of_eq (by rw [h1])
    · exact le_of_lt ((List.pairwise_cons.mp hqsorted).1 u h1)
  · intro hq
    simp only [get_step_output, hq]
    rfl
  · intro hparse
    exact hloop (inputFormats taskConfigInputFormat) _ hparse

/-- Task rows for the C8 witness: parent step 4 owns a running task 9, a
failed task 8 and a done task 3 (descending id order). -/
def sampleTasks : List DBTask :=
  [{ id := 9, stepId := 4, status := "running".toList },
   { id := 8, stepId := 4, status := "failed".toList },
   { id := 3, stepId := 4, status := "done".toList }]

/-- Dataset rows for the C8 witness: task 9 registered an `AOD` output
and a `log` output; task 3 registered an older `AOD` output. -/
def sampleDatasets : List DBDataset :=
  [{ name := "mc16.100.samp.recon.AOD.e1".toList, taskId := 9 },
   { name := "mc16.100.samp.recon.log.e1".toList, taskId := 9 },
   { name := "mc16.100.samp.recon.AOD.e0".toList, taskId := 3 }]

/-- Witness for C8 at concrete tables: the resolution picks task 9 (the
highest-id non-terminal parent task) and filters out its `log` output. -/
theorem c8_nonroot_input_resolution_witness :
    (get_step_output true sampleTasks sampleDatasets 4 true none =
      (sampleDatasets.filter (fun d => decide (d.taskId = 9))).map DBDataset.name) ∧
    (∃ res, get_input_params_nonroot none sampleTasks sampleDatasets 4 = .ok res ∧
      res.map Prod.snd =
        (get_step_output true sampleTasks sampleDatasets 4 true none).filter
          (keepInput (inputFormats none))) := by
  obtain ⟨h1, _, _, h4⟩ :=
    c8_nonroot_input_resolution sampleTasks sampleDatasets 4 none (by decide)
  exact ⟨(h1 { id := 9, stepId := 4, status := "running".toList }
    [{ id := 3, stepId := 4, status := "done".toList }] (by decide)).1, h4 (by decide)⟩

/-- The outcome of one step's handling inside the per-step `try` of
`_define_tasks_for_requests` (taskdef.py lines 4657-4789): either it
completes, or it raises and the bare `except` catches, logs and
continues. -/
inductive StepOutcome
  | ok
  | raisesCaught
deriving Repr, DecidableEq

/-- One request as the per-request loop sees it: the outcomes of its
selected steps, and whether the body raises outside any per-step `try`
(possible at the parent-step fetch of line 4654, while building the step
list in lines 4636-4652, or at the status recomputation of lines
4790-4792). -/
structure EngineRequest where
  id : Nat
  steps : List StepOutcome
  bodyRaises : Bool
deriving Repr, DecidableEq

/-- The persisted per-request state after an engine pass. -/
structure ReqResult where
  id : Nat
  locked : Bool
  processed : Bool
  exceptionFlag : Bool
deriving Repr, DecidableEq

/-- The first loop of `_define_tasks_for_requests` (lines 4624-4627):
every request's `locked` flag is persisted `True` before any request is
processed. -/
def lockAll (rs : List EngineRequest) : List ReqResult :=
  rs.map (fun r =>
    { id := r.id, locked := true, processed := false, exceptionFlag := false })

/-- The step loop inside one request's body: a step exception is caught
by the bare `except` (line 4778), sets the request's `exception` flag and
processing continues with the next step; the returned flag is the
resulting `exception` value. -/
def processSteps : List StepOutcome → Bool
  | [] => false
  | .ok :: rest => processSteps rest
  | .raisesCaught :: rest => (processSteps rest) || true

/-- The per-request loop with its `try ... finally` (lines 4631-4798):
each request's body runs, the `finally` always resets its `locked` flag,
and — the loop having no `except` clause — an exception escaping the
per-step handling propagates out of the whole loop, leaving every later
request locked and unprocessed.  The input is the state `lockAll`
produced. -/
def processRequests : List EngineRequest → List ReqResult
  | [] => []
  | r :: rest =>
    if r.bodyRaises then
      { id := r.id, locked := false, processed := false, exceptionFlag := false } ::
        rest.map (fun u =>
          { id := u.id, locked := true, processed := false, exceptionFlag := false })
    else
      { id := r.id, locked := false, processed := true,
        exceptionFlag := processSteps r.steps } :: processRequests rest

/-- `TaskDefinition._define_tasks_for_requests` (lines 4623-4798): lock
every request, then run the per-request loop. -/
def define_tasks_for_requests (rs : List EngineRequest) : List ReqResult :=
  processRequests rs

/-- Counterexample for C9: the first request's body raises outside the
per-step handler (no per-request `except` exists); the `finally` unlocks
it, but the second request is left locked and never processed —
contradicting the claim that the exception is caught at the per-request
boundary and processing of the remaining requests continues. -/
theorem c9_lock_release_counterexample :
    define_tasks_for_requests
      [{ id := 1, steps := [], bodyRaises := true },
       { id := 2, steps := [.ok], bodyRaises := false }] =
      [{ id := 1, locked := false, processed := false, exceptionFlag := false },
       { id := 2, locked := true, processed := false, exceptionFlag := false }] ∧
    (lockAll [{ id := 1, steps := [], bodyRaises := true },
       { id := 2, steps := [.ok], bodyRaises := false }]).all
      (fun s => s.locked) = true := by
  exact ⟨rfl, rfl⟩

/-- C9 (amended): every request is locked before processing; a step
exception is caught per-step, only sets the request's exception flag, and
processing continues (the request body completes, unlocked); when a
request's body raises outside the per-step handler, the `finally` still
unlocks that request, but the exception propagates and the remaining
requests stay locked and unprocessed. -/
theorem c9_lock_release_amended :
    (∀ rs : List EngineRequest, ∀ s ∈ lockAll rs, s.locked = true) ∧
    (∀ steps : List StepOutcome,
      processSteps steps = steps.any (fun s => s = .raisesCaught)) ∧
    (∀ rs : List EngineRequest, (∀ r ∈ rs, r.bodyRaises = false) →
      define_tasks_for_requests rs = rs.map (fun r =>
        { id := r.id, locked := false, processed := true,
          exceptionFlag := processSteps r.steps })) ∧
    (∀ (pre : List EngineRequest) (r : EngineRequest) (post : List EngineRequest),
      (∀ u ∈ pre, u.bodyRaises = false) → r.bodyRaises = true →
      define_tasks_for_requests (pre ++ r :: post) =
        (pre.map (fun u =>
          { id := u.id, locked := false, processed := true,
            exceptionFlag := processSteps u.steps })) ++
        { id := r.id, locked := false, processed := false, exceptionFlag := false } ::
        (post.map (fun u =>
          { id := u.id, locked := true, processed := false,
            exceptionFlag := false }))) := by
  refine ⟨?_, ?_, ?_, ?_⟩
  · intro rs s hs
    obtain ⟨r, _, rfl⟩ := List.mem_map.mp hs
    rfl
  · intro steps
    induction steps with
    | nil => rfl
    | cons s rest ih =>
      cases s <;> simp [processSteps, ih, List.any_cons]
  · intro rs h
    induction rs with
    | nil => rfl
    | cons r rest ih =>
      have hr : r.bodyRaises = false := h r (by simp)
      simp only [define_tasks_for_requests, processRequests] at ih ⊢
      rw [if_neg (by simp [hr]), ih (fun u hu => h u (by simp [hu]))]
      rfl
  · intro pre r post hpre hr
    induction pre with
    | nil =>
      simp only [define_tasks_for_requests, List.nil_append, processRequests]
      rw [if_pos hr]
      rfl
    | cons u rest ih =>
      have hu : u.bodyRaises = false := hpre u (by simp)
      simp only [define_tasks_for_requests, List.cons_append, processRequests,
        List.append_eq] at ih ⊢
      rw [if_neg (by simp [hu]), ih (fun x hx => hpre x (by simp [hx]))]
      rfl

/-- Witness for C9 (amended) at concrete requests: a caught step
exception only sets the flag and the request is unlocked; an escaping
body exception still unlocks the request. -/
theorem c9_lock_release_amended_witness :
    processSteps [.raisesCaught, .ok] = ([StepOutcome.raisesCaught,
      StepOutcome.ok].any (fun s => s = .raisesCaught)) ∧
    define_tasks_for_requests [{ id := 1, steps := [.raisesCaught], bodyRaises := false }] =
      [{ id := 1, locked := false, processed := true, exceptionFlag := true }] ∧
    define_tasks_for_requests [{ id := 1, steps := [], bodyRaises := true }] =
      [{ id := 1, locked := false, processed := false, exceptionFlag := false }] := by
  obtain ⟨_, h2, h3, h4⟩ := c9_lock_release_amended
  refine ⟨h2 [.raisesCaught, .ok], ?_, ?_⟩
  · rw [h3 [{ id := 1, steps := [.raisesCaught], bodyRaises := false }] (by simp)]
    rfl
  · have h := h4 [] { id := 1, steps := [], bodyRaises := true } [] (by simp) rfl
    simpa using h
